import Mathlib

/-!
Verification of the lexer and recursive-descent parser of a small C-like
language (files `src/lexer/scanner.py`, `src/lexer/tokenizer.py`,
`src/parser/parser.py`).  Source text is modelled as `List Char`; Python's
`re` behaviour is embedded directly:
* the tokenizer's single alternation pattern is embedded alternative by
  alternative, tried in the pattern's declared order at each position;
* `re.finditer` advances by one character when no alternative matches
  (unmatched spans produce no token);
* Python's `$` also matches just before a single final newline, which the
  `re_fullmatch` helper reproduces;
* `\d` is modelled as the ASCII digits `0-9` (the repository's inputs are
  ASCII; non-ASCII Unicode decimal digits are not modelled);
* `\s` and `str.isspace` both use `Py_UNICODE_ISSPACE`, modelled by
  `py_isspace` over the full Unicode whitespace set.
-/

/-- Token categories, from `lexer/token_types.py`. -/
inductive TokenType where
  | KEYWORD
  | IDENTIFIER
  | OPERATOR
  | NUMERIC_CONSTANT
  | CHARACTER_CONSTANT
  | SPECIAL_CHARACTER
  | COMMENT
  | WHITESPACE
  | NEWLINE
deriving DecidableEq, Repr

/-- A token, from `lexer/token.py`: lexeme, category, 1-based line/column. -/
structure Token where
  value : List Char
  type : TokenType
  line : Nat
  column : Nat
deriving DecidableEq, Repr

/-! ## Scanner predicates (`lexer/scanner.py`) -/

/-- The fixed keyword list of `Scanner.__init__`. -/
def keywords : List (List Char) :=
  ["int", "float", "char", "double", "if", "else", "for", "while",
   "do", "return", "void", "switch", "case", "break", "continue",
   "struct", "typedef", "static", "const", "unsigned", "signed"].map String.toList

/-- The operator list of `Scanner.__init__`. -/
def operators : List (List Char) :=
  ["+", "-", "*", "/", "%", "=", "==", "!=", ">", "<", ">=", "<=",
   "&&", "||", "++", "--", "&", "|", "!", "^"].map String.toList

/-- The special-character list of `Scanner.__init__`. -/
def special_characters : List (List Char) :=
  ["(", ")", "\x7b", "\x7d", "[", "]", ";", ",", ".", "#"].map String.toList

/-- Model of `Scanner.is_keyword`: membership in the keyword list. -/
def is_keyword (word : List Char) : Bool := keywords.contains word

/-- Model of `Scanner.is_operator`: membership in the operator list. -/
def is_operator (w : List Char) : Bool := operators.contains w

/-- Model of `Scanner.is_special_character`: membership in the special-character list. -/
def is_special_character (w : List Char) : Bool := special_characters.contains w

/-- ASCII letter, the character class `[A-Za-z]`. -/
def is_ascii_letter (c : Char) : Bool :=
  ('A' ≤ c && c ≤ 'Z') || ('a' ≤ c && c ≤ 'z')

/-- ASCII digit, the character class `[0-9]` (model of `\d`). -/
def is_ascii_digit (c : Char) : Bool := '0' ≤ c && c ≤ '9'

/-- The character class `[A-Za-z0-9_]`. -/
def is_word_char (c : Char) : Bool :=
  is_ascii_letter c || is_ascii_digit c || c == '_'

/-- Model of `Py_UNICODE_ISSPACE`, used by both `str.isspace` and `\s` in CPython. -/
def py_isspace (c : Char) : Bool :=
  c.toNat ∈ [9, 10, 11, 12, 13, 28, 29, 30, 31, 32,
             0x85, 0xA0, 0x1680,
             0x2000, 0x2001, 0x2002, 0x2003, 0x2004, 0x2005, 0x2006,
             0x2007, 0x2008, 0x2009, 0x200A, 0x2028, 0x2029, 0x202F,
             0x205F, 0x3000]

/-- CPython `re.match(r"^core$", s)`: the anchored pattern also matches when a
single final newline follows the core (Python's `$` quirk). -/
def re_fullmatch (core : List Char → Bool) (l : List Char) : Bool :=
  core l ||
    (match l.getLast? with
     | some c => c == '\n' && core l.dropLast
     | none => false)

/-- Core of `^[A-Za-z_][A-Za-z0-9_]*$`. -/
def ident_core : List Char → Bool
  | [] => false
  | c :: rest => (is_ascii_letter c || c == '_') && rest.all is_word_char

/-- Model of `Scanner.is_identifier`: `re.match(r'^[A-Za-z_][A-Za-z0-9_]*$', word)`. -/
def is_identifier (word : List Char) : Bool := re_fullmatch ident_core word

/-- Core of `^\d+(\.\d+)?$`. -/
def num_core (l : List Char) : Bool :=
  let d := (l.takeWhile is_ascii_digit).length
  decide (0 < d) &&
    (match l.drop d with
     | [] => true
     | '.' :: r2 => decide (r2 ≠ []) && r2.all is_ascii_digit
     | _ => false)

/-- Model of `Scanner.is_numeric_constant`: `re.match(r'^\d+(\.\d+)?$', word)`. -/
def is_numeric_constant (word : List Char) : Bool := re_fullmatch num_core word

/-- Core of `^'.'$` (`.` matches any character except a newline). -/
def char_core : List Char → Bool
  | ['\'', c, '\''] => c != '\n'
  | _ => false

/-- Model of `Scanner.is_character_constant`: `re.match(r"^'.'$", word)`. -/
def is_character_constant (word : List Char) : Bool := re_fullmatch char_core word

/-- Model of `Scanner.is_comment`: starts with `//`, or starts with `/*` and ends with `*/`. -/
def is_comment (text : List Char) : Bool :=
  "//".toList.isPrefixOf text ||
    ("/*".toList.isPrefixOf text && "*/".toList.isSuffixOf text)

/-- Model of `Scanner.is_whitespace`: Python `str.isspace` (nonempty, all whitespace). -/
def is_whitespace (w : List Char) : Bool := !w.isEmpty && w.all py_isspace

/-- Model of `Scanner.is_newline`: equality with the one-character string `"\n"`. -/
def is_newline (w : List Char) : Bool := w == ['\n']

/-! ## The tokenizer's alternation (`Tokenizer.__init__` pattern), one
function per alternative, each returning the length matched at the head of
the input, or `none`. -/

/-- Alternative `//[^\n]*` (single-line comment, greedy). -/
def alt_line_comment : List Char → Option Nat
  | '/' :: '/' :: rest => some (2 + (rest.takeWhile (fun c => c != '\n')).length)
  | _ => none

/-- Least offset at which `*/` occurs (the lazy `.*?\*/` with `re.DOTALL`):
offset 0 when the list starts with `*` followed by `/`, else one more than
the offset in the tail. -/
def find_close : List Char → Option Nat
  | [] => none
  | c :: rest =>
    if c == '*' && rest.head? == some '/' then some 0
    else (find_close rest).map (· + 1)

/-- Alternative `/\*.*?\*/` (block comment, lazy, DOTALL). -/
def alt_block_comment : List Char → Option Nat
  | '/' :: '*' :: rest => (find_close rest).map (fun m => 4 + m)
  | _ => none

/-- Alternative `'[^']'` (character constant). -/
def alt_char_const : List Char → Option Nat
  | '\'' :: c :: '\'' :: _ => if c == '\'' then none else some 3
  | _ => none

/-- Alternative `\d+\.\d+|\d+` (numeric constant; the float branch first). -/
def alt_numeric (l : List Char) : Option Nat :=
  let d := (l.takeWhile is_ascii_digit).length
  if d == 0 then none
  else
    match l.drop d with
    | '.' :: r2 =>
      let d2 := (r2.takeWhile is_ascii_digit).length
      if d2 == 0 then some d else some (d + 1 + d2)
    | _ => some d

/-- Alternative `[A-Za-z_][A-Za-z0-9_]*` (identifiers and keywords). -/
def alt_ident : List Char → Option Nat
  | [] => none
  | c :: rest =>
    if is_ascii_letter c || c == '_' then
      some (1 + (rest.takeWhile is_word_char).length)
    else none

/-- The eight two-character operators of the alternation. -/
def multi_ops : List (List Char) :=
  ["==", "!=", ">=", "<=", "++", "--", "&&", "||"].map String.toList

/-- Alternative `==|!=|>=|<=|\+\+|--|&&|\|\|` (multi-character operators). -/
def alt_multi_op (l : List Char) : Option Nat :=
  if multi_ops.any (fun op => op.isPrefixOf l) then some 2 else none

/-- The single-character-operator class `[+\-*/%=><!&|^]`. -/
def single_op_chars : List Char := "+-*/%=><!&|^".toList

/-- Alternative `[+\-*/%=><!&|^]`. -/
def alt_single_op : List Char → Option Nat
  | c :: _ => if single_op_chars.contains c then some 1 else none
  | [] => none

/-- The special-character class `[\(\){}\[\];,\.#]`. -/
def special_scan_chars : List Char := "()\x7b\x7d[];,.#".toList

/-- Alternative `[\(\){}\[\];,\.#]`. -/
def alt_special : List Char → Option Nat
  | c :: _ => if special_scan_chars.contains c then some 1 else none
  | [] => none

/-- Alternative `\s+` (whitespace run, greedy). -/
def alt_whitespace (l : List Char) : Option Nat :=
  let n := (l.takeWhile py_isspace).length
  if n == 0 then none else some n

/-- One attempt of the whole alternation at the head of the input:
alternatives are tried in the pattern's declared order, first match wins. -/
def match_at (l : List Char) : Option Nat :=
  (alt_line_comment l).orElse fun _ =>
  (alt_block_comment l).orElse fun _ =>
  (alt_char_const l).orElse fun _ =>
  (alt_numeric l).orElse fun _ =>
  (alt_ident l).orElse fun _ =>
  (alt_multi_op l).orElse fun _ =>
  (alt_single_op l).orElse fun _ =>
  (alt_special l).orElse fun _ =>
  alt_whitespace l

/-- Model of `re.finditer` over the alternation: emit `(start offset, lexeme)` pairs
left to right; where no alternative matches, step one character forward
(that character is covered by no match).  `fuel` only bounds recursion; any
`fuel ≥ length of the input` yields the full scan. -/
def scan_aux : Nat → List Char → Nat → List (Nat × List Char)
  | 0, _, _ => []
  | _ + 1, [], _ => []
  | fuel + 1, c :: rest, i =>
    match match_at (c :: rest) with
    | some n => (i, (c :: rest).take n) :: scan_aux fuel ((c :: rest).drop n) (i + n)
    | none => scan_aux fuel rest (i + 1)

/-- All matches of the alternation over the input, with their start offsets. -/
def scan (s : List Char) : List (Nat × List Char) := scan_aux (s.length + 1) s 0

/-- Model of `code.count('\n', 0, start)`: number of newlines among the first `k`
characters. -/
def count_nl : List Char → Nat → Nat
  | _, 0 => 0
  | [], _ + 1 => 0
  | c :: rest, k + 1 => (if c == '\n' then 1 else 0) + count_nl rest k

/-- Backward search helper for `rfind_nl`: index of the last newline in the
list, if any. -/
def rfind_go : List Char → Option Nat
  | [] => none
  | c :: rest =>
    match rfind_go rest with
    | some j => some (j + 1)
    | none => if c == '\n' then some 0 else none

/-- Model of `code.rfind('\n', 0, start)`: index of the last newline before offset `k`
(`none` models CPython's `-1`). -/
def rfind_nl (s : List Char) (k : Nat) : Option Nat := rfind_go (s.take k)

/-- The priority-ordered if/elif classification chain of
`Tokenizer.tokenize` (lines 38-57 of `tokenizer.py`). -/
def classify (lexeme : List Char) : TokenType :=
  if is_comment lexeme then .COMMENT
  else if is_keyword lexeme then .KEYWORD
  else if is_operator lexeme then .OPERATOR
  else if is_special_character lexeme then .SPECIAL_CHARACTER
  else if is_character_constant lexeme then .CHARACTER_CONSTANT
  else if is_numeric_constant lexeme then .NUMERIC_CONSTANT
  else if is_identifier lexeme then .IDENTIFIER
  else if is_newline lexeme then .NEWLINE
  else if is_whitespace lexeme then .WHITESPACE
  else .IDENTIFIER

/-- Model of `Tokenizer.tokenize`: scan, then classify each lexeme and annotate it
with the 1-based line/column computed from its start offset. -/
def tokenize (code : List Char) : List Token :=
  (scan code).map fun p =>
    { value := p.2
      type := classify p.2
      line := count_nl code p.1 + 1
      column :=
        match rfind_nl code p.1 with
        | some j => p.1 - j
        | none => p.1 + 1 }



/-! ## Parser (`parser/parser.py`)

Each Python method mutating `self.pos` becomes a function threading the
cursor explicitly.  A routine's outcome is `Res`: `ok` (normal return),
`err` (`ParserError` raised), or `noFuel` (recursion bound hit — the Python
code has no such bound; every claim either quantifies over all fuel or uses
a concrete fuel large enough that `noFuel` does not occur).  All three carry
the cursor value at that point. -/

/-- Shorthand: the character list of a string literal. -/
def lx (s : String) : List Char := s.toList

/-- Outcome of a parser routine, with the cursor at exit. -/
inductive Res where
  | ok : Nat → Res
  | err : Nat → Res
  | noFuel : Nat → Res
deriving DecidableEq, Repr

/-- The cursor carried by an outcome. -/
def Res.pos : Res → Nat
  | .ok p => p
  | .err p => p
  | .noFuel p => p

/-- Sequencing: continue from the new cursor on `ok`, propagate otherwise. -/
def Res.bind (r : Res) (f : Nat → Res) : Res :=
  match r with
  | .ok p => f p
  | r => r

/-- Model of `.err` outcome test. -/
def Res.isErr : Res → Bool
  | .err _ => true
  | _ => false

/-- Model of `Parser._is_trivia`: comments, whitespace and newlines. -/
def is_trivia (t : Token) : Bool :=
  t.type == .COMMENT || t.type == .WHITESPACE || t.type == .NEWLINE

/-- Loop body of `Parser._skip_trivia`, walking the suffix starting at the
cursor. -/
def skip_aux : List Token → Nat → Nat
  | [], pos => pos
  | t :: rest, pos => if is_trivia t then skip_aux rest (pos + 1) else pos

/-- Model of `Parser._skip_trivia`: advance the cursor past leading trivia. -/
def skip_trivia (ts : List Token) (pos : Nat) : Nat := skip_aux (ts.drop pos) pos

/-- The counting loop of `Parser.peek` for `n > 0`: step past the current
non-trivia token and any trivia after it, `n` times. -/
def peek_walk (ts : List Token) : Nat → Nat → Nat
  | idx, 0 => idx
  | idx, r + 1 =>
    if idx < ts.length then peek_walk ts (skip_trivia ts (idx + 1)) r else idx

/-- Model of `Parser.peek(n)`: the return value.  (Its side effect on the cursor is
exactly `skip_trivia`.) -/
def peek (ts : List Token) (pos : Nat) (n : Nat) : Option Token :=
  let idx := skip_trivia ts pos
  if n == 0 then ts[idx]?
  else ts[peek_walk ts idx n]?

/-- Model of `Parser.advance`: returned token and resulting cursor. -/
def advance (ts : List Token) (pos : Nat) : Option Token × Nat :=
  let p := skip_trivia ts pos
  match ts[p]? with
  | some t => (some t, p + 1)
  | none => (none, p)

/-- Model of `Parser.expect`: consume one token, validating the optional category and
lexeme constraints; `error` models the raised `ParserError`.  The second
component is the cursor after the call (Python's `self.pos`, which persists
when the exception propagates). -/
def expect (ts : List Token) (pos : Nat) (type? : Option TokenType)
    (lexeme? : Option (List Char)) (adv : Bool) : Except Unit Token × Nat :=
  let p := skip_trivia ts pos
  match ts[p]? with
  | none => (.error (), p)
  | some t =>
    if (match type? with | some ty => t.type != ty | none => false) then
      (.error (), p)
    else if (match lexeme? with | some l => t.value != l | none => false) then
      (.error (), p)
    else (.ok t, if adv then p + 1 else p)

/-- Model of `expect` with the token discarded, as the grammar routines use it. -/
def expectR (ts : List Token) (pos : Nat) (type? : Option TokenType)
    (lexeme? : Option (List Char)) : Res :=
  match expect ts pos type? lexeme? true with
  | (.ok _, p) => .ok p
  | (.error _, p) => .err p

/-- Model of `Parser.expect_eof`: fail if a non-trivia token remains. -/
def expect_eof (ts : List Token) (pos : Nat) : Except Unit Unit × Nat :=
  let p := skip_trivia ts pos
  match ts[p]? with
  | some _ => (.error (), p)
  | none => (.ok (), p)

/-- The test `tok.type == KEYWORD and tok.value in {"int", "float", "void"}`. -/
def is_type_kw (t : Token) : Bool :=
  t.type == .KEYWORD &&
    (t.value == lx "int" || t.value == lx "float" || t.value == lx "void")

/-- The test `tok.value in {'<', '<=', '>', '>=', '==', '!='}`. -/
def is_rel_op (t : Token) : Bool :=
  t.value == lx "<" || t.value == lx "<=" || t.value == lx ">" ||
  t.value == lx ">=" || t.value == lx "==" || t.value == lx "!="

mutual

/-- Model of `Parser.parse_program`. -/
def parse_program : Nat → List Token → Nat → Res
  | 0, _, pos => .noFuel pos
  | fuel + 1, ts, pos =>
    let p := skip_trivia ts pos
    match ts[p]? with
    | none => .err p
    | some t =>
      if is_type_kw t then
        (parse_decl_list fuel ts p).bind fun p2 =>
          match expect_eof ts p2 with
          | (.ok _, p3) => .ok p3
          | (.error _, p3) => .err p3
      else .err p

/-- Model of `Parser.parse_decl_list`. -/
def parse_decl_list : Nat → List Token → Nat → Res
  | 0, _, pos => .noFuel pos
  | fuel + 1, ts, pos =>
    let p := skip_trivia ts pos
    match ts[p]? with
    | none => .ok p
    | some t =>
      if is_type_kw t then
        (parse_decl fuel ts p).bind fun p2 => parse_decl_list fuel ts p2
      else .err p
termination_by structural fuel => fuel

/-- Model of `Parser.parse_decl`. -/
def parse_decl : Nat → List Token → Nat → Res
  | 0, _, pos => .noFuel pos
  | fuel + 1, ts, pos =>
    let p := skip_trivia ts pos
    match ts[p]? with
    | none => .err p
    | some t =>
      if is_type_kw t then
        (parse_type_spec fuel ts p).bind fun p1 =>
        (expectR ts p1 (some .IDENTIFIER) none).bind fun p2 =>
          let p3 := skip_trivia ts p2
          match ts[p3]? with
          | some t2 =>
            if t2.value == lx "(" then
              (expectR ts p3 none (some (lx "("))).bind fun p4 =>
              (parse_param_list fuel ts p4).bind fun p5 =>
              (expectR ts p5 none (some (lx ")"))).bind fun p6 =>
              parse_compound_stmt fuel ts p6
            else
              (parse_var_decl_tail fuel ts p3).bind fun p4 =>
              expectR ts p4 none (some (lx ";"))
          | none =>
            (parse_var_decl_tail fuel ts p3).bind fun p4 =>
            expectR ts p4 none (some (lx ";"))
      else .err p

/-- Model of `Parser.parse_var_decl`. -/
def parse_var_decl : Nat → List Token → Nat → Res
  | 0, _, pos => .noFuel pos
  | fuel + 1, ts, pos =>
    let p := skip_trivia ts pos
    match ts[p]? with
    | none => .err p
    | some t =>
      if is_type_kw t then
        (parse_type_spec fuel ts p).bind fun p1 =>
        (expectR ts p1 (some .IDENTIFIER) none).bind fun p2 =>
        (parse_var_decl_tail fuel ts p2).bind fun p3 =>
        expectR ts p3 none (some (lx ";"))
      else .err p

/-- Model of `Parser.parse_var_decl_tail`. -/
def parse_var_decl_tail : Nat → List Token → Nat → Res
  | 0, _, pos => .noFuel pos
  | fuel + 1, ts, pos =>
    let p := skip_trivia ts pos
    if (match ts[p]? with | some t => t.value == lx ";" | none => false) then
      .ok p
    else
      (expectR ts p none (some (lx ","))).bind fun p1 =>
      (expectR ts p1 (some .IDENTIFIER) none).bind fun p2 =>
      parse_var_decl_tail fuel ts p2
termination_by structural fuel => fuel

/-- Model of `Parser.parse_param_list`. -/
def parse_param_list : Nat → List Token → Nat → Res
  | 0, _, pos => .noFuel pos
  | fuel + 1, ts, pos =>
    let p := skip_trivia ts pos
    match ts[p]? with
    | none => .err p
    | some t =>
      if (t.type == .KEYWORD && t.value == lx "void") || t.value == lx ")" then
        if t.value == lx "void" then .ok (advance ts p).2 else .ok p
      else if is_type_kw t then
        (parse_type_spec fuel ts p).bind fun p1 =>
        (expectR ts p1 (some .IDENTIFIER) none).bind fun p2 =>
        parse_param_list_tail fuel ts p2
      else .err p

/-- Model of `Parser.parse_param_list_tail`. -/
def parse_param_list_tail : Nat → List Token → Nat → Res
  | 0, _, pos => .noFuel pos
  | fuel + 1, ts, pos =>
    let p := skip_trivia ts pos
    if (match ts[p]? with | some t => t.value == lx ")" | none => false) then
      .ok p
    else
      (expectR ts p none (some (lx ","))).bind fun p1 =>
      (parse_type_spec fuel ts p1).bind fun p2 =>
      (expectR ts p2 (some .IDENTIFIER) none).bind fun p3 =>
      parse_param_list_tail fuel ts p3
termination_by structural fuel => fuel

/-- Model of `Parser.parse_type_spec`. -/
def parse_type_spec : Nat → List Token → Nat → Res
  | 0, _, pos => .noFuel pos
  | _ + 1, ts, pos =>
    let p := skip_trivia ts pos
    match ts[p]? with
    | none => .err p
    | some t => if is_type_kw t then .ok (advance ts p).2 else .err p

/-- Model of `Parser.parse_compound_stmt`. -/
def parse_compound_stmt : Nat → List Token → Nat → Res
  | 0, _, pos => .noFuel pos
  | fuel + 1, ts, pos =>
    let p := skip_trivia ts pos
    match ts[p]? with
    | none => .err p
    | some _ =>
      (expectR ts p none (some (lx "\x7b"))).bind fun p1 =>
      (parse_local_decl_list fuel ts p1).bind fun p2 =>
      (parse_stmt_list fuel ts p2).bind fun p3 =>
      expectR ts p3 none (some (lx "\x7d"))
termination_by structural fuel => fuel

/-- Model of `Parser.parse_local_decl_list`. -/
def parse_local_decl_list : Nat → List Token → Nat → Res
  | 0, _, pos => .noFuel pos
  | fuel + 1, ts, pos =>
    let p := skip_trivia ts pos
    match ts[p]? with
    | none => .ok p
    | some t =>
      if is_type_kw t then
        (parse_var_decl fuel ts p).bind fun p1 => parse_local_decl_list fuel ts p1
      else .ok p
termination_by structural fuel => fuel

/-- Model of `Parser.parse_stmt_list`.  Note the lookahead set: statement keywords,
`{`, or an identifier — nothing else starts a statement here. -/
def parse_stmt_list : Nat → List Token → Nat → Res
  | 0, _, pos => .noFuel pos
  | fuel + 1, ts, pos =>
    let p := skip_trivia ts pos
    match ts[p]? with
    | none => .ok p
    | some t =>
      if (t.type == .KEYWORD &&
            (t.value == lx "if" || t.value == lx "while" ||
             t.value == lx "for" || t.value == lx "return")) ||
          t.value == lx "\x7b" || t.type == .IDENTIFIER then
        (parse_stmt fuel ts p).bind fun p1 => parse_stmt_list fuel ts p1
      else .ok p
termination_by structural fuel => fuel

/-- Model of `Parser.parse_stmt`. -/
def parse_stmt : Nat → List Token → Nat → Res
  | 0, _, pos => .noFuel pos
  | fuel + 1, ts, pos =>
    let p := skip_trivia ts pos
    match ts[p]? with
    | none => .err p
    | some t =>
      if t.value == lx "\x7b" then parse_compound_stmt fuel ts p
      else if t.type == .KEYWORD && t.value == lx "if" then parse_if_stmt fuel ts p
      else if t.type == .KEYWORD && t.value == lx "while" then parse_while_stmt fuel ts p
      else if t.type == .KEYWORD && t.value == lx "for" then parse_for_stmt fuel ts p
      else if t.type == .KEYWORD && t.value == lx "return" then parse_return_stmt fuel ts p
      else if t.type == .IDENTIFIER then parse_expr_stmt fuel ts p
      else .err p
termination_by structural fuel => fuel

/-- Model of `Parser.parse_expr_stmt`. -/
def parse_expr_stmt : Nat → List Token → Nat → Res
  | 0, _, pos => .noFuel pos
  | fuel + 1, ts, pos =>
    let p := skip_trivia ts pos
    if (match ts[p]? with | some t => t.value == lx ";" | none => false) then
      expectR ts p none (some (lx ";"))
    else
      (parse_expr fuel ts p).bind fun p1 => expectR ts p1 none (some (lx ";"))

/-- Model of `Parser.parse_if_stmt`. -/
def parse_if_stmt : Nat → List Token → Nat → Res
  | 0, _, pos => .noFuel pos
  | fuel + 1, ts, pos =>
    let p := skip_trivia ts pos
    match ts[p]? with
    | none => .err p
    | some _ =>
      (expectR ts p (some .KEYWORD) (some (lx "if"))).bind fun p1 =>
      (expectR ts p1 none (some (lx "("))).bind fun p2 =>
      (parse_expr fuel ts p2).bind fun p3 =>
      (expectR ts p3 none (some (lx ")"))).bind fun p4 =>
      (parse_stmt fuel ts p4).bind fun p5 =>
      parse_else_part fuel ts p5
termination_by structural fuel => fuel

/-- Model of `Parser.parse_else_part`. -/
def parse_else_part : Nat → List Token → Nat → Res
  | 0, _, pos => .noFuel pos
  | fuel + 1, ts, pos =>
    let p := skip_trivia ts pos
    match ts[p]? with
    | none => .ok p
    | some t =>
      if t.type == .KEYWORD && t.value == lx "else" then
        (expectR ts p none (some (lx "else"))).bind fun p1 => parse_stmt fuel ts p1
      else .ok p
termination_by structural fuel => fuel

/-- Model of `Parser.parse_while_stmt`. -/
def parse_while_stmt : Nat → List Token → Nat → Res
  | 0, _, pos => .noFuel pos
  | fuel + 1, ts, pos =>
    let p := skip_trivia ts pos
    match ts[p]? with
    | none => .err p
    | some _ =>
      (expectR ts p (some .KEYWORD) (some (lx "while"))).bind fun p1 =>
      (expectR ts p1 none (some (lx "("))).bind fun p2 =>
      (parse_expr fuel ts p2).bind fun p3 =>
      (expectR ts p3 none (some (lx ")"))).bind fun p4 =>
      parse_stmt fuel ts p4
termination_by structural fuel => fuel

/-- Model of `Parser.parse_for_stmt`. -/
def parse_for_stmt : Nat → List Token → Nat → Res
  | 0, _, pos => .noFuel pos
  | fuel + 1, ts, pos =>
    let p := skip_trivia ts pos
    match ts[p]? with
    | none => .err p
    | some _ =>
      (expectR ts p (some .KEYWORD) (some (lx "for"))).bind fun p1 =>
      (expectR ts p1 none (some (lx "("))).bind fun p2 =>
      (parse_expr_stmt fuel ts p2).bind fun p3 =>
      (parse_expr_stmt fuel ts p3).bind fun p4 =>
      (parse_expr_opt fuel ts p4).bind fun p5 =>
      (expectR ts p5 none (some (lx ")"))).bind fun p6 =>
      parse_stmt fuel ts p6
termination_by structural fuel => fuel

/-- Model of `Parser.parse_return_stmt`. -/
def parse_return_stmt : Nat → List Token → Nat → Res
  | 0, _, pos => .noFuel pos
  | fuel + 1, ts, pos =>
    let p := skip_trivia ts pos
    match ts[p]? with
    | none => .err p
    | some _ =>
      (expectR ts p (some .KEYWORD) (some (lx "return"))).bind fun p1 =>
      (parse_expr_opt fuel ts p1).bind fun p2 =>
      expectR ts p2 none (some (lx ";"))

/-- Model of `Parser.parse_expr_opt`. -/
def parse_expr_opt : Nat → List Token → Nat → Res
  | 0, _, pos => .noFuel pos
  | fuel + 1, ts, pos =>
    let p := skip_trivia ts pos
    match ts[p]? with
    | none => .ok p
    | some t =>
      if t.type == .IDENTIFIER || t.type == .NUMERIC_CONSTANT ||
          t.value == lx "(" then
        parse_expr fuel ts p
      else .ok p

/-- Model of `Parser.parse_expr`. -/
def parse_expr : Nat → List Token → Nat → Res
  | 0, _, pos => .noFuel pos
  | fuel + 1, ts, pos => parse_assign_expr fuel ts pos
termination_by structural fuel => fuel

/-- Model of `Parser.parse_assign_expr`: if the leading token is an identifier and the
token one past it (`peek(1)`) is `=`, consume `ID =` and recurse; otherwise
derive an `OrExpr`.  The `self.pos = last_pos` rollback branch of the source
is the `parse_or_expr fuel ts p1` call from the saved cursor `p1`. -/
def parse_assign_expr : Nat → List Token → Nat → Res
  | 0, _, pos => .noFuel pos
  | fuel + 1, ts, pos =>
    let p := skip_trivia ts pos
    match ts[p]? with
    | none => parse_or_expr fuel ts p
    | some t =>
      if t.type == .IDENTIFIER &&
          (match peek ts p 1 with | some t2 => t2.value == lx "=" | none => false) then
        (expectR ts p (some .IDENTIFIER) none).bind fun p1 =>
          let p2 := skip_trivia ts p1
          match ts[p2]? with
          | some t3 =>
            if t3.value == lx "=" then
              (expectR ts p2 none (some (lx "="))).bind fun p3 =>
              parse_assign_expr fuel ts p3
            else parse_or_expr fuel ts p1
          | none => parse_or_expr fuel ts p1
      else parse_or_expr fuel ts p
termination_by structural fuel => fuel

/-- Model of `Parser.parse_or_expr`. -/
def parse_or_expr : Nat → List Token → Nat → Res
  | 0, _, pos => .noFuel pos
  | fuel + 1, ts, pos =>
    (parse_and_expr fuel ts pos).bind fun p1 => parse_or_expr_tail fuel ts p1
termination_by structural fuel => fuel

/-- Model of `Parser.parse_or_expr_tail`. -/
def parse_or_expr_tail : Nat → List Token → Nat → Res
  | 0, _, pos => .noFuel pos
  | fuel + 1, ts, pos =>
    let p := skip_trivia ts pos
    match ts[p]? with
    | none => .ok p
    | some t =>
      if t.value == lx "||" then
        (expectR ts p none (some (lx "||"))).bind fun p1 =>
        (parse_and_expr fuel ts p1).bind fun p2 =>
        parse_or_expr_tail fuel ts p2
      else .ok p
termination_by structural fuel => fuel

/-- Model of `Parser.parse_and_expr`. -/
def parse_and_expr : Nat → List Token → Nat → Res
  | 0, _, pos => .noFuel pos
  | fuel + 1, ts, pos =>
    (parse_rel_expr fuel ts pos).bind fun p1 => parse_and_expr_tail fuel ts p1
termination_by structural fuel => fuel

/-- Model of `Parser.parse_and_expr_tail`. -/
def parse_and_expr_tail : Nat → List Token → Nat → Res
  | 0, _, pos => .noFuel pos
  | fuel + 1, ts, pos =>
    let p := skip_trivia ts pos
    match ts[p]? with
    | none => .ok p
    | some t =>
      if t.value == lx "&&" then
        (expectR ts p none (some (lx "&&"))).bind fun p1 =>
        (parse_rel_expr fuel ts p1).bind fun p2 =>
        parse_and_expr_tail fuel ts p2
      else .ok p
termination_by structural fuel => fuel

/-- Model of `Parser.parse_rel_expr`. -/
def parse_rel_expr : Nat → List Token → Nat → Res
  | 0, _, pos => .noFuel pos
  | fuel + 1, ts, pos =>
    (parse_add_expr fuel ts pos).bind fun p1 => parse_rel_op_tail fuel ts p1
termination_by structural fuel => fuel

/-- Model of `Parser.parse_rel_op_tail`. -/
def parse_rel_op_tail : Nat → List Token → Nat → Res
  | 0, _, pos => .noFuel pos
  | fuel + 1, ts, pos =>
    let p := skip_trivia ts pos
    match ts[p]? with
    | none => .ok p
    | some t =>
      if is_rel_op t then
        (parse_rel_op fuel ts p).bind fun p1 => parse_add_expr fuel ts p1
      else .ok p
termination_by structural fuel => fuel

/-- Model of `Parser.parse_rel_op`. -/
def parse_rel_op : Nat → List Token → Nat → Res
  | 0, _, pos => .noFuel pos
  | _ + 1, ts, pos =>
    let p := skip_trivia ts pos
    match ts[p]? with
    | none => .err p
    | some t => if is_rel_op t then .ok (advance ts p).2 else .err p

/-- Model of `Parser.parse_add_expr`. -/
def parse_add_expr : Nat → List Token → Nat → Res
  | 0, _, pos => .noFuel pos
  | fuel + 1, ts, pos =>
    (parse_term fuel ts pos).bind fun p1 => parse_add_expr_tail fuel ts p1
termination_by structural fuel => fuel

/-- Model of `Parser.parse_add_expr_tail`. -/
def parse_add_expr_tail : Nat → List Token → Nat → Res
  | 0, _, pos => .noFuel pos
  | fuel + 1, ts, pos =>
    let p := skip_trivia ts pos
    match ts[p]? with
    | none => .ok p
    | some t =>
      if t.value == lx "+" || t.value == lx "-" then
        (parse_term fuel ts (advance ts p).2).bind fun p1 =>
        parse_add_expr_tail fuel ts p1
      else .ok p
termination_by structural fuel => fuel

/-- Model of `Parser.parse_term`. -/
def parse_term : Nat → List Token → Nat → Res
  | 0, _, pos => .noFuel pos
  | fuel + 1, ts, pos =>
    (parse_factor fuel ts pos).bind fun p1 => parse_term_tail fuel ts p1
termination_by structural fuel => fuel

/-- Model of `Parser.parse_term_tail`. -/
def parse_term_tail : Nat → List Token → Nat → Res
  | 0, _, pos => .noFuel pos
  | fuel + 1, ts, pos =>
    let p := skip_trivia ts pos
    match ts[p]? with
    | none => .ok p
    | some t =>
      if t.value == lx "*" then
        (expectR ts p none (some (lx "*"))).bind fun p1 =>
        (parse_factor fuel ts p1).bind fun p2 => parse_term_tail fuel ts p2
      else if t.value == lx "/" then
        (expectR ts p none (some (lx "/"))).bind fun p1 =>
        (parse_factor fuel ts p1).bind fun p2 => parse_term_tail fuel ts p2
      else .ok p
termination_by structural fuel => fuel

/-- Model of `Parser.parse_factor`. -/
def parse_factor : Nat → List Token → Nat → Res
  | 0, _, pos => .noFuel pos
  | fuel + 1, ts, pos =>
    let p := skip_trivia ts pos
    match ts[p]? with
    | none => .err p
    | some t =>
      if t.value == lx "(" then
        (expectR ts p none (some (lx "("))).bind fun p1 =>
        (parse_expr fuel ts p1).bind fun p2 =>
        expectR ts p2 none (some (lx ")"))
      else if t.type == .IDENTIFIER then
        (expectR ts p (some .IDENTIFIER) none).bind fun p1 =>
        parse_factor_tail fuel ts p1
      else if t.type == .NUMERIC_CONSTANT then parse_literal fuel ts p
      else .err p
termination_by structural fuel => fuel

/-- Model of `Parser.parse_factor_tail`. -/
def parse_factor_tail : Nat → List Token → Nat → Res
  | 0, _, pos => .noFuel pos
  | fuel + 1, ts, pos =>
    let p := skip_trivia ts pos
    match ts[p]? with
    | none => .ok p
    | some t =>
      if t.value == lx "(" then
        (expectR ts p none (some (lx "("))).bind fun p1 =>
        (parse_arg_list fuel ts p1).bind fun p2 =>
        expectR ts p2 none (some (lx ")"))
      else .ok p
termination_by structural fuel => fuel

/-- Model of `Parser.parse_arg_list`. -/
def parse_arg_list : Nat → List Token → Nat → Res
  | 0, _, pos => .noFuel pos
  | fuel + 1, ts, pos =>
    let p := skip_trivia ts pos
    match ts[p]? with
    | none => .ok p
    | some t =>
      if t.value == lx ")" then .ok p
      else
        (parse_expr fuel ts p).bind fun p1 => parse_arg_list_tail fuel ts p1
termination_by structural fuel => fuel

/-- Model of `Parser.parse_arg_list_tail`. -/
def parse_arg_list_tail : Nat → List Token → Nat → Res
  | 0, _, pos => .noFuel pos
  | fuel + 1, ts, pos =>
    let p := skip_trivia ts pos
    match ts[p]? with
    | none => .ok p
    | some t =>
      if t.value == lx ")" then .ok p
      else if t.value == lx "," then
        (expectR ts p none (some (lx ","))).bind fun p1 =>
        (parse_expr fuel ts p1).bind fun p2 => parse_arg_list_tail fuel ts p2
      else .err p
termination_by structural fuel => fuel

/-- Model of `Parser.parse_literal`. -/
def parse_literal : Nat → List Token → Nat → Res
  | 0, _, pos => .noFuel pos
  | _ + 1, ts, pos =>
    let p := skip_trivia ts pos
    match ts[p]? with
    | none => .err p
    | some _ => expectR ts p (some .NUMERIC_CONSTANT) none

end

/-- Fuel that is ample for the concrete scenario inputs used below. -/
def ample_fuel (ts : List Token) : Nat := ts.length * 40 + 40

/-- The parse of `main.py`: `parse_program` then a final `expect_eof`, on the
token list produced by `tokenize`; `true` is the "Syntax is correct" path. -/
def run_main (code : List Char) : Bool :=
  let ts := tokenize code
  match parse_program (ample_fuel ts) ts 0 with
  | .ok p =>
    match expect_eof ts p with
    | (.ok _, _) => true
    | (.error _, _) => false
  | _ => false

/-- The outcome of `parse_program` alone on a source string. -/
def parse_outcome (code : List Char) : Res :=
  let ts := tokenize code
  parse_program (ample_fuel ts) ts 0



/-! ## Derived notions used by the claims -/

/-- The non-trivia subsequence of a token list (what the parser consumes). -/
def non_trivia (ts : List Token) : List Token := ts.filter (fun t => !is_trivia t)

/-- The non-trivia subsequence at or after a cursor. -/
def rest_stream (ts : List Token) (pos : Nat) : List Token :=
  (ts.drop pos).filter (fun t => !is_trivia t)

/-- Concatenation of all token lexemes, in order. -/
def concat_lexemes (ts : List Token) : List Char := (ts.map Token.value).flatten

/-- The disjunction of the nine scanner category predicates. -/
def some_predicate_accepts (l : List Char) : Bool :=
  is_comment l || is_keyword l || is_operator l || is_special_character l ||
  is_character_constant l || is_numeric_constant l || is_identifier l ||
  is_whitespace l || is_newline l

/-- Well-formedness of a span list over a source: start offsets are
non-decreasing from `lo` on, spans do not overlap, every lexeme is nonempty
and equals the source slice at its span. -/
def spans_from (s : List Char) (lo : Nat) : List (Nat × List Char) → Prop
  | [] => True
  | (k, lexeme) :: rest =>
      lo ≤ k ∧ lexeme ≠ [] ∧ lexeme = (s.drop k).take lexeme.length ∧
      spans_from s (k + lexeme.length) rest

/-- Generic priority classifier: first predicate that accepts wins, else the
fallback category. -/
def first_match : List ((List Char → Bool) × TokenType) → TokenType → List Char → TokenType
  | [], fallback, _ => fallback
  | (p, ty) :: rest, fallback, l =>
    if p l then ty else first_match rest fallback l

/-- The priority order stated by the specification (§4.1): ... IDENTIFIER →
WHITESPACE → NEWLINE → fallback. -/
def claimed_priority : List ((List Char → Bool) × TokenType) :=
  [(is_comment, .COMMENT), (is_keyword, .KEYWORD), (is_operator, .OPERATOR),
   (is_special_character, .SPECIAL_CHARACTER),
   (is_character_constant, .CHARACTER_CONSTANT),
   (is_numeric_constant, .NUMERIC_CONSTANT), (is_identifier, .IDENTIFIER),
   (is_whitespace, .WHITESPACE), (is_newline, .NEWLINE)]

/-- The priority order the code actually applies (`tokenizer.py` lines
38-57): ... IDENTIFIER → NEWLINE → WHITESPACE → fallback. -/
def code_priority : List ((List Char → Bool) × TokenType) :=
  [(is_comment, .COMMENT), (is_keyword, .KEYWORD), (is_operator, .OPERATOR),
   (is_special_character, .SPECIAL_CHARACTER),
   (is_character_constant, .CHARACTER_CONSTANT),
   (is_numeric_constant, .NUMERIC_CONSTANT), (is_identifier, .IDENTIFIER),
   (is_newline, .NEWLINE), (is_whitespace, .WHITESPACE)]

/-! ## Claim C2: the specification grammar

The grammar of §4.3, as inductive derivability predicates over sequences of
token views (category, lexeme) — positions are irrelevant to derivability.
`Program := Decl*` per the EBNF; the empty-input scenario is checked against
the implementation directly. -/

/-- A token stripped to what the grammar sees. -/
def view (t : Token) : TokenType × List Char := (t.type, t.value)

/-- Keyword terminal. -/
def kwV (s : String) : TokenType × List Char := (.KEYWORD, s.toList)

/-- Identifier terminal. -/
def idV (x : List Char) : TokenType × List Char := (.IDENTIFIER, x)

/-- Special-character terminal. -/
def spV (s : String) : TokenType × List Char := (.SPECIAL_CHARACTER, s.toList)

/-- Operator terminal. -/
def opV (s : String) : TokenType × List Char := (.OPERATOR, s.toList)

/-- Numeric terminal. -/
def numV (x : List Char) : TokenType × List Char := (.NUMERIC_CONSTANT, x)

/-- The six relational operators. -/
inductive GRelOp : (TokenType × List Char) → Prop where
  | lt : GRelOp (opV "<")
  | le : GRelOp (opV "<=")
  | gt : GRelOp (opV ">")
  | ge : GRelOp (opV ">=")
  | eq : GRelOp (opV "==")
  | ne : GRelOp (opV "!=")

set_option maxHeartbeats 1000000 in
mutual

/-- Model of `Program := Decl* EOF`. -/
inductive GProgram : List (TokenType × List Char) → Prop where
  | decls : ∀ w, GDeclStar w → GProgram w

/-- Zero or more declarations. -/
inductive GDeclStar : List (TokenType × List Char) → Prop where
  | nil : GDeclStar []
  | cons : ∀ u v, GDecl u → GDeclStar v → GDeclStar (u ++ v)

/-- Model of `Decl := TypeSpec ID ( '(' ParamList ')' CompoundStmt | (',' ID)* ';' )`. -/
inductive GDecl : List (TokenType × List Char) → Prop where
  | fn : ∀ ty ps b (x : List Char), GTypeSpec ty → GParamList ps → GCompound b →
      GDecl (ty ++ idV x :: spV "(" :: (ps ++ spV ")" :: b))
  | var : ∀ ty tl (x : List Char), GTypeSpec ty → GIdCommaStar tl →
      GDecl (ty ++ idV x :: (tl ++ [spV ";"]))

/-- Model of `(',' ID)*`. -/
inductive GIdCommaStar : List (TokenType × List Char) → Prop where
  | nil : GIdCommaStar []
  | cons : ∀ v (x : List Char), GIdCommaStar v →
      GIdCommaStar (spV "," :: idV x :: v)

/-- Model of `ParamList := 'void' | ε | TypeSpec ID (',' TypeSpec ID)*`. -/
inductive GParamList : List (TokenType × List Char) → Prop where
  | voidP : GParamList [kwV "void"]
  | eps : GParamList []
  | params : ∀ ty tl (x : List Char), GTypeSpec ty → GParamsTail tl →
      GParamList (ty ++ idV x :: tl)

/-- Model of `(',' TypeSpec ID)*`. -/
inductive GParamsTail : List (TokenType × List Char) → Prop where
  | nil : GParamsTail []
  | cons : ∀ ty v (x : List Char), GTypeSpec ty → GParamsTail v →
      GParamsTail (spV "," :: (ty ++ idV x :: v))

/-- Model of `TypeSpec := 'int' | 'float' | 'void'`. -/
inductive GTypeSpec : List (TokenType × List Char) → Prop where
  | int_ : GTypeSpec [kwV "int"]
  | float_ : GTypeSpec [kwV "float"]
  | void_ : GTypeSpec [kwV "void"]

/-- Model of `CompoundStmt := '{' VarDecl* Stmt* '}'`. -/
inductive GCompound : List (TokenType × List Char) → Prop where
  | mk : ∀ u v, GVarDeclStar u → GStmtStar v →
      GCompound (spV "\x7b" :: (u ++ v ++ [spV "\x7d"]))

/-- Zero or more local variable declarations. -/
inductive GVarDeclStar : List (TokenType × List Char) → Prop where
  | nil : GVarDeclStar []
  | cons : ∀ u v, GVarDecl u → GVarDeclStar v → GVarDeclStar (u ++ v)

/-- Model of `VarDecl := TypeSpec ID (',' ID)* ';'`. -/
inductive GVarDecl : List (TokenType × List Char) → Prop where
  | mk : ∀ ty tl (x : List Char), GTypeSpec ty → GIdCommaStar tl →
      GVarDecl (ty ++ idV x :: (tl ++ [spV ";"]))

/-- Zero or more statements. -/
inductive GStmtStar : List (TokenType × List Char) → Prop where
  | nil : GStmtStar []
  | cons : ∀ u v, GStmt u → GStmtStar v → GStmtStar (u ++ v)

/-- Model of `Stmt := CompoundStmt | IfStmt | WhileStmt | ForStmt | ReturnStmt |
ExprStmt`. -/
inductive GStmt : List (TokenType × List Char) → Prop where
  | comp : ∀ w, GCompound w → GStmt w
  | ifs : ∀ w, GIfStmt w → GStmt w
  | whiles : ∀ w, GWhileStmt w → GStmt w
  | fors : ∀ w, GForStmt w → GStmt w
  | rets : ∀ w, GReturnStmt w → GStmt w
  | exprs : ∀ w, GExprStmt w → GStmt w

/-- Model of `ExprStmt := Expr? ';'`. -/
inductive GExprStmt : List (TokenType × List Char) → Prop where
  | full : ∀ e, GExpr e → GExprStmt (e ++ [spV ";"])
  | empty : GExprStmt [spV ";"]

/-- Model of `IfStmt := 'if' '(' Expr ')' Stmt ('else' Stmt)?`. -/
inductive GIfStmt : List (TokenType × List Char) → Prop where
  | noElse : ∀ c s, GExpr c → GStmt s →
      GIfStmt (kwV "if" :: spV "(" :: (c ++ spV ")" :: s))
  | withElse : ∀ c s1 s2, GExpr c → GStmt s1 → GStmt s2 →
      GIfStmt (kwV "if" :: spV "(" :: (c ++ spV ")" :: (s1 ++ kwV "else" :: s2)))

/-- Model of `WhileStmt := 'while' '(' Expr ')' Stmt`. -/
inductive GWhileStmt : List (TokenType × List Char) → Prop where
  | mk : ∀ c s, GExpr c → GStmt s →
      GWhileStmt (kwV "while" :: spV "(" :: (c ++ spV ")" :: s))

/-- Model of `ForStmt := 'for' '(' ExprStmt ExprStmt Expr? ')' Stmt`. -/
inductive GForStmt : List (TokenType × List Char) → Prop where
  | mk : ∀ a b c s, GExprStmt a → GExprStmt b → GExprOpt c → GStmt s →
      GForStmt (kwV "for" :: spV "(" :: (a ++ b ++ c ++ spV ")" :: s))

/-- Model of `ReturnStmt := 'return' Expr? ';'`. -/
inductive GReturnStmt : List (TokenType × List Char) → Prop where
  | mk : ∀ e, GExprOpt e → GReturnStmt (kwV "return" :: (e ++ [spV ";"]))

/-- Model of `Expr?`. -/
inductive GExprOpt : List (TokenType × List Char) → Prop where
  | none_ : GExprOpt []
  | some_ : ∀ e, GExpr e → GExprOpt e

/-- Model of `Expr := AssignExpr`. -/
inductive GExpr : List (TokenType × List Char) → Prop where
  | mk : ∀ w, GAssignExpr w → GExpr w

/-- Model of `AssignExpr := ID '=' AssignExpr | OrExpr`. -/
inductive GAssignExpr : List (TokenType × List Char) → Prop where
  | assign : ∀ e (x : List Char), GAssignExpr e →
      GAssignExpr (idV x :: opV "=" :: e)
  | orE : ∀ w, GOrExpr w → GAssignExpr w

/-- Model of `OrExpr := AndExpr ('||' AndExpr)*`. -/
inductive GOrExpr : List (TokenType × List Char) → Prop where
  | mk : ∀ u v, GAndExpr u → GOrTail v → GOrExpr (u ++ v)

/-- Model of `('||' AndExpr)*`. -/
inductive GOrTail : List (TokenType × List Char) → Prop where
  | nil : GOrTail []
  | cons : ∀ u v, GAndExpr u → GOrTail v → GOrTail (opV "||" :: (u ++ v))

/-- Model of `AndExpr := RelExpr ('&&' RelExpr)*`. -/
inductive GAndExpr : List (TokenType × List Char) → Prop where
  | mk : ∀ u v, GRelExpr u → GAndTail v → GAndExpr (u ++ v)

/-- Model of `('&&' RelExpr)*`. -/
inductive GAndTail : List (TokenType × List Char) → Prop where
  | nil : GAndTail []
  | cons : ∀ u v, GRelExpr u → GAndTail v → GAndTail (opV "&&" :: (u ++ v))

/-- Model of `RelExpr := AddExpr (RelOp AddExpr)?`. -/
inductive GRelExpr : List (TokenType × List Char) → Prop where
  | noOp : ∀ w, GAddExpr w → GRelExpr w
  | withOp : ∀ a o b, GAddExpr a → GRelOp o → GAddExpr b →
      GRelExpr (a ++ o :: b)

/-- Model of `AddExpr := Term (('+'|'-') Term)*`. -/
inductive GAddExpr : List (TokenType × List Char) → Prop where
  | mk : ∀ u v, GTerm u → GAddTail v → GAddExpr (u ++ v)

/-- Model of `(('+'|'-') Term)*`. -/
inductive GAddTail : List (TokenType × List Char) → Prop where
  | nil : GAddTail []
  | plus : ∀ u v, GTerm u → GAddTail v → GAddTail (opV "+" :: (u ++ v))
  | minus : ∀ u v, GTerm u → GAddTail v → GAddTail (opV "-" :: (u ++ v))

/-- Model of `Term := Factor (('*'|'/') Factor)*`. -/
inductive GTerm : List (TokenType × List Char) → Prop where
  | mk : ∀ u v, GFactor u → GTermTail v → GTerm (u ++ v)

/-- Model of `(('*'|'/') Factor)*`. -/
inductive GTermTail : List (TokenType × List Char) → Prop where
  | nil : GTermTail []
  | times : ∀ u v, GFactor u → GTermTail v → GTermTail (opV "*" :: (u ++ v))
  | div : ∀ u v, GFactor u → GTermTail v → GTermTail (opV "/" :: (u ++ v))

/-- Model of `Factor := '(' Expr ')' | ID ('(' ArgList ')')? | NUMBER`. -/
inductive GFactor : List (TokenType × List Char) → Prop where
  | paren : ∀ e, GExpr e → GFactor (spV "(" :: (e ++ [spV ")"]))
  | ident : ∀ (x : List Char), GFactor [idV x]
  | call : ∀ a (x : List Char), GArgList a →
      GFactor (idV x :: spV "(" :: (a ++ [spV ")"]))
  | num : ∀ (x : List Char), GFactor [numV x]

/-- Model of `ArgList := (Expr (',' Expr)*)?`. -/
inductive GArgList : List (TokenType × List Char) → Prop where
  | eps : GArgList []
  | more : ∀ e v, GExpr e → GArgTail v → GArgList (e ++ v)

/-- Model of `(',' Expr)*`. -/
inductive GArgTail : List (TokenType × List Char) → Prop where
  | nil : GArgTail []
  | cons : ∀ e v, GExpr e → GArgTail v → GArgTail (spV "," :: (e ++ v))

end

/-- A parser routine keeps the cursor within `[pos, length]`. -/
def stays (f : List Token → Nat → Res) : Prop :=
  ∀ ts pos, pos ≤ ts.length → pos ≤ (f ts pos).pos ∧ (f ts pos).pos ≤ ts.length

/-- The grammar routines of the parser, in source order. -/
def parser_routines : List (Nat → List Token → Nat → Res) :=
  [parse_program, parse_decl_list, parse_decl, parse_var_decl,
   parse_var_decl_tail, parse_param_list, parse_param_list_tail,
   parse_type_spec, parse_compound_stmt, parse_local_decl_list,
   parse_stmt_list, parse_stmt, parse_expr_stmt, parse_if_stmt,
   parse_else_part, parse_while_stmt, parse_for_stmt, parse_return_stmt,
   parse_expr_opt, parse_expr, parse_assign_expr, parse_or_expr,
   parse_or_expr_tail, parse_and_expr, parse_and_expr_tail, parse_rel_expr,
   parse_rel_op_tail, parse_rel_op, parse_add_expr, parse_add_expr_tail,
   parse_term, parse_term_tail, parse_factor, parse_factor_tail,
   parse_arg_list, parse_arg_list_tail, parse_literal]

/-! ## Sanity checks on concrete inputs -/

example : tokenize "@".toList = [] := by decide
example :
    tokenize "a\nb".toList =
      [⟨['a'], .IDENTIFIER, 1, 1⟩, ⟨['\n'], .NEWLINE, 1, 2⟩,
       ⟨['b'], .IDENTIFIER, 2, 1⟩] := by decide
example :
    tokenize "'\n'".toList = [⟨['\'', '\n', '\''], .IDENTIFIER, 1, 1⟩] := by
  decide

example : run_main "int main(void)\x7breturn 0;\x7d".toList = true := by decide
example : run_main "int main(void)\x7ba = b = 3;\x7d".toList = true := by decide
example : Res.isErr (parse_outcome "int f()\x7b;\x7d".toList) = true := by decide
example : Res.isErr (parse_outcome "".toList) = true := by decide
example : Res.isErr (parse_outcome "int x".toList) = true := by decide
example : Res.isErr (parse_outcome "int f(void x)\x7b\x7d".toList) = true := by decide

/-! ## Claim C8 -/

/-- Claim C8: on `int main(void){return 0;}` the pipeline accepts, and the
tokens produced — the two whitespace runs being trivia — are exactly
KEYWORD `int`@1:1, IDENTIFIER `main`@1:5, SPECIAL_CHARACTER `(`@1:9,
KEYWORD `void`@1:10, SPECIAL_CHARACTER `)`@1:14, SPECIAL_CHARACTER `{`@1:15,
KEYWORD `return`@1:16, NUMERIC_CONSTANT `0`@1:23, SPECIAL_CHARACTER `;`@1:24,
SPECIAL_CHARACTER `}`@1:25. -/
theorem claim_C8 :
    run_main (lx "int main(void)\x7breturn 0;\x7d") = true ∧
    non_trivia (tokenize (lx "int main(void)\x7breturn 0;\x7d")) =
      [⟨lx "int", .KEYWORD, 1, 1⟩, ⟨lx "main", .IDENTIFIER, 1, 5⟩,
       ⟨lx "(", .SPECIAL_CHARACTER, 1, 9⟩, ⟨lx "void", .KEYWORD, 1, 10⟩,
       ⟨lx ")", .SPECIAL_CHARACTER, 1, 14⟩, ⟨lx "\x7b", .SPECIAL_CHARACTER, 1, 15⟩,
       ⟨lx "return", .KEYWORD, 1, 16⟩, ⟨lx "0", .NUMERIC_CONSTANT, 1, 23⟩,
       ⟨lx ";", .SPECIAL_CHARACTER, 1, 24⟩, ⟨lx "\x7d", .SPECIAL_CHARACTER, 1, 25⟩] := by
  exact ⟨by decide, by decide⟩

/-! ## Claim C3 -/

/-- Claim C3 counterexample: the lexeme `"\n"` (a lone newline, emitted by the
`\s+` alternative) is classified NEWLINE by the code, but the claimed
priority order — WHITESPACE tested before NEWLINE — would classify it
WHITESPACE, because a lone newline satisfies `is_whitespace` as well. -/
theorem claim_C3_counterexample :
    tokenize (lx "\n") = [⟨lx "\n", .NEWLINE, 1, 1⟩] ∧
    classify (lx "\n") = .NEWLINE ∧
    first_match claimed_priority .IDENTIFIER (lx "\n") = .WHITESPACE := by
  exact ⟨by decide, by decide, by decide⟩

/-- Claim C3 as amended: the category assigned is the first accepting
predicate in the order COMMENT, KEYWORD, OPERATOR, SPECIAL_CHARACTER,
CHARACTER_CONSTANT, NUMERIC_CONSTANT, IDENTIFIER, then NEWLINE, then
WHITESPACE, and finally the fallback IDENTIFIER. -/
theorem claim_C3_amended (lexeme : List Char) :
    classify lexeme = first_match code_priority .IDENTIFIER lexeme := rfl

/-! ## Claim C1 (counterexample part) -/

/-- Claim C1 counterexample: on the input `"@"` no scanning alternative
matches; `re.finditer` silently skips the character, `tokenize` returns no
token and raises nothing, so the concatenated lexemes do not reproduce the
source and offset 0 lies in no token span. -/
theorem claim_C1_counterexample :
    tokenize (lx "@") = [] ∧ concat_lexemes (tokenize (lx "@")) ≠ lx "@" := by
  exact ⟨by decide, by decide⟩

/-! ## Claim C4 (counterexample part) -/

/-- Claim C4 counterexample: the character-constant alternative `'[^']'`
matches the three-character input `'` newline `'` (since `[^']` accepts a
newline), but every one of the nine scanner predicates rejects that lexeme
(`is_character_constant` uses `.`, which excludes newlines), so the
defensive fallback branch is reached and mislabels it IDENTIFIER. -/
theorem claim_C4_counterexample :
    scan (lx "'\n'") = [(0, ['\'', '\n', '\''])] ∧
    some_predicate_accepts ['\'', '\n', '\''] = false ∧
    tokenize (lx "'\n'") = [⟨['\'', '\n', '\''], .IDENTIFIER, 1, 1⟩] := by
  exact ⟨by decide, by decide, by decide⟩

/-! ## Cursor lemmas: `skip_trivia`, `peek`, `expect` -/

/-- Model of `skip_trivia` unrolled one position at a time. -/
theorem skip_trivia_eq (ts : List Token) (pos : Nat) :
    skip_trivia ts pos =
      match ts[pos]? with
      | some t => if is_trivia t then skip_trivia ts (pos + 1) else pos
      | none => pos := by
  unfold skip_trivia
  cases h : ts.drop pos with
  | nil =>
    have hlen : ts.length ≤ pos := List.drop_eq_nil_iff.mp h
    rw [List.getElem?_eq_none_iff.mpr hlen]
    rfl
  | cons t rest =>
    have h0 : ts[pos]? = some t := by
      have := List.getElem?_drop ts pos 0
      rw [h] at this
      simpa using this.symm
    have h1 : ts.drop (pos + 1) = rest := by
      have := List.drop_drop 1 pos ts
      rw [h] at this
      simpa using this.symm
    rw [h0, h1]
    rfl

/-- If the token at the cursor exists and is not trivia, the non-trivia
suffix decomposes as that token followed by the suffix one past it. -/
theorem rest_stream_cons {ts : List Token} {p : Nat} {t : Token}
    (h : ts[p]? = some t) (ht : is_trivia t = false) :
    rest_stream ts p = t :: rest_stream ts (p + 1) := by
  obtain ⟨hlt, he⟩ := List.getElem?_eq_some.mp h
  unfold rest_stream
  rw [List.drop_eq_getElem_cons hlt, he, List.filter_cons, ht]
  simp

/-- If the token at the cursor exists and is trivia, dropping it does not
change the non-trivia suffix. -/
theorem rest_stream_trivia {ts : List Token} {p : Nat} {t : Token}
    (h : ts[p]? = some t) (ht : is_trivia t = true) :
    rest_stream ts p = rest_stream ts (p + 1) := by
  obtain ⟨hlt, he⟩ := List.getElem?_eq_some.mp h
  unfold rest_stream
  rw [List.drop_eq_getElem_cons hlt, he, List.filter_cons, ht]
  simp

/-- Past the end of the stream the non-trivia suffix is empty. -/
theorem rest_stream_nil {ts : List Token} {p : Nat} (h : ts[p]? = none) :
    rest_stream ts p = [] := by
  unfold rest_stream
  rw [List.drop_eq_nil_iff.mpr (List.getElem?_eq_none_iff.mp h)]
  rfl

/-- Model of `skip_trivia` at the end of the stream: no move. -/
theorem skip_trivia_none {ts : List Token} {pos : Nat} (h : ts[pos]? = none) :
    skip_trivia ts pos = pos := by
  rw [skip_trivia_eq, h]

/-- Model of `skip_trivia` on a trivia token: step over it. -/
theorem skip_trivia_step_trivia {ts : List Token} {pos : Nat} {t : Token}
    (h : ts[pos]? = some t) (ht : is_trivia t = true) :
    skip_trivia ts pos = skip_trivia ts (pos + 1) := by
  rw [skip_trivia_eq, h]
  simp [ht]

/-- Model of `skip_trivia` on a non-trivia token: no move. -/
theorem skip_trivia_stop {ts : List Token} {pos : Nat} {t : Token}
    (h : ts[pos]? = some t) (ht : is_trivia t = false) :
    skip_trivia ts pos = pos := by
  rw [skip_trivia_eq, h]
  simp [ht]

/-- The basic facts about `skip_trivia`, by induction on the distance to the
end of the stream: it never moves backwards, never moves past the end
(beyond where it started), preserves the non-trivia suffix, and stops on a
non-trivia token. -/
theorem skip_trivia_props_aux (ts : List Token) :
    ∀ (n : Nat) (pos : Nat), ts.length - pos ≤ n →
      pos ≤ skip_trivia ts pos ∧
      skip_trivia ts pos ≤ max pos ts.length ∧
      rest_stream ts (skip_trivia ts pos) = rest_stream ts pos ∧
      (∀ t, ts[skip_trivia ts pos]? = some t → is_trivia t = false) := by
  intro n
  induction n with
  | zero =>
    intro pos hle
    have hnone : ts[pos]? = none := List.getElem?_eq_none_iff.mpr (by omega)
    rw [skip_trivia_none hnone]
    exact ⟨Nat.le_refl _, Nat.le_max_left _ _, rfl, fun t h => by simp [hnone] at h⟩
  | succ n ih =>
    intro pos hle
    cases hp : ts[pos]? with
    | none =>
      rw [skip_trivia_none hp]
      exact ⟨Nat.le_refl _, Nat.le_max_left _ _, rfl, fun t h => by simp [hp] at h⟩
    | some t =>
      have hlt : pos < ts.length := (List.getElem?_eq_some.mp hp).1
      cases htr : is_trivia t with
      | false =>
        rw [skip_trivia_stop hp htr]
        refine ⟨Nat.le_refl _, Nat.le_max_left _ _, rfl, fun u h => ?_⟩
        rw [hp] at h
        cases h
        exact htr
      | true =>
        rw [skip_trivia_step_trivia hp htr]
        obtain ⟨h1, h2, h3, h4⟩ := ih (pos + 1) (by omega)
        refine ⟨by omega, by omega, ?_, h4⟩
        rw [h3, rest_stream_trivia hp htr]

/-- The facts of `skip_trivia_props_aux` with the bound instantiated. -/
theorem skip_trivia_props (ts : List Token) (pos : Nat) :
    pos ≤ skip_trivia ts pos ∧
    skip_trivia ts pos ≤ max pos ts.length ∧
    rest_stream ts (skip_trivia ts pos) = rest_stream ts pos ∧
    (∀ t, ts[skip_trivia ts pos]? = some t → is_trivia t = false) :=
  skip_trivia_props_aux ts (ts.length - pos) pos (Nat.le_refl _)

/-- Model of `skip_trivia` is idempotent. -/
theorem skip_trivia_idem (ts : List Token) (pos : Nat) :
    skip_trivia ts (skip_trivia ts pos) = skip_trivia ts pos := by
  cases hp : ts[skip_trivia ts pos]? with
  | none => exact skip_trivia_none hp
  | some t => exact skip_trivia_stop hp ((skip_trivia_props ts pos).2.2.2 t hp)

/-- Correctness of the `peek` counting walk: starting from a cursor that is
already at a non-trivia token (or at the end), the walk lands on the index
of the `n`-th following non-trivia token. -/
theorem peek_walk_spec (ts : List Token) :
    ∀ (n : Nat) (q : Nat), skip_trivia ts q = q →
      ts[peek_walk ts q n]? = (rest_stream ts q)[n]? := by
  intro n
  induction n with
  | zero =>
    intro q hq
    rw [peek_walk]
    cases hp : ts[q]? with
    | none => rw [rest_stream_nil hp]; rfl
    | some t =>
      have htr : is_trivia t = false := by
        have h := (skip_trivia_props ts q).2.2.2
        rw [hq] at h
        exact h t hp
      rw [rest_stream_cons hp htr]
      simp [hp]

  | succ n ih =>
    intro q hq
    rw [peek_walk]
    by_cases hlt : q < ts.length
    · simp only [hlt, if_true]
      have hp : ts[q]? = some ts[q] := List.getElem?_eq_getElem hlt
      have htr : is_trivia ts[q] = false := by
        have h := (skip_trivia_props ts q).2.2.2
        rw [hq] at h
        exact h _ hp
      rw [ih (skip_trivia ts (q + 1)) (skip_trivia_idem ts (q + 1)),
        (skip_trivia_props ts (q + 1)).2.2.1, rest_stream_cons hp htr]
      simp
    · simp only [hlt, if_false]
      rw [rest_stream_nil (List.getElem?_eq_none_iff.mpr (by omega)),
        List.getElem?_eq_none_iff.mpr (by omega)]
      rfl

/-- Claim C7: for every parser state and every `n ≥ 0`, `peek(n)` returns the
`(n+1)`-th non-trivia token at or after the cursor without consuming it —
COMMENT, WHITESPACE and NEWLINE tokens are skipped transparently — and
returns none when fewer than `n+1` non-trivia tokens remain (the partial
index lookup on the non-trivia suffix is exactly that contract). -/
theorem claim_C7 (ts : List Token) (pos n : Nat) :
    peek ts pos n = (rest_stream ts pos)[n]? := by
  unfold peek
  have hfix := skip_trivia_idem ts pos
  have hrw := (skip_trivia_props ts pos).2.2.1
  by_cases hn : n = 0
  · subst hn
    simp only [beq_self_eq_true, if_true]
    have h := peek_walk_spec ts 0 (skip_trivia ts pos) hfix
    rw [peek_walk] at h
    rw [h, hrw]
  · have hb : (n == 0) = false := by simp [hn]
    simp only [hb, if_false]
    rw [peek_walk_spec ts n (skip_trivia ts pos) hfix, hrw]
    simp

/-- Claim C10: `expect` is atomic on the non-trivia stream.  When it raises
(stream exhausted, category mismatch, or lexeme mismatch) the non-trivia
subsequence at or after the cursor is unchanged — only trivia may have been
skipped; when it succeeds with advance enabled, exactly the first non-trivia
token is consumed, and that token is the one returned. -/
theorem claim_C10 (ts : List Token) (pos : Nat) (type? : Option TokenType)
    (lexeme? : Option (List Char)) :
    match expect ts pos type? lexeme? true with
    | (.error _, p2) => rest_stream ts p2 = rest_stream ts pos
    | (.ok t, p2) => rest_stream ts pos = t :: rest_stream ts p2 := by
  have hrw := (skip_trivia_props ts pos).2.2.1
  unfold expect
  cases hp : ts[skip_trivia ts pos]? with
  | none =>
    simp only [hp]
    exact hrw
  | some t =>
    have htr : is_trivia t = false := (skip_trivia_props ts pos).2.2.2 t hp
    have hcons : rest_stream ts (skip_trivia ts pos) =
        t :: rest_stream ts (skip_trivia ts pos + 1) := rest_stream_cons hp htr
    simp only [hp]
    cases hc1 : (match type? with | some ty => t.type != ty | none => false) with
    | true =>
      simp only [hc1, if_true]
      exact hrw
    | false =>
      cases hc2 : (match lexeme? with | some l => t.value != l | none => false) with
      | true =>
        simp only [hc1, hc2, if_true, Bool.false_eq_true, if_false]
        exact hrw
      | false =>
        simp only [hc1, hc2, Bool.false_eq_true, if_false, if_true]
        rw [← hrw, hcons]

/-! ## Position law: `count_nl` and `rfind_nl` -/

/-- Model of `count_nl s k` counts exactly the newlines among the first `k`
characters. -/
theorem count_nl_spec : ∀ (s : List Char) (k : Nat),
    count_nl s k = (s.take k).count '\n' := by
  intro s
  induction s with
  | nil => intro k; cases k <;> simp [count_nl]
  | cons c rest ih =>
    intro k
    cases k with
    | zero => simp [count_nl]
    | succ k =>
      rw [count_nl, ih k, List.take_succ_cons, List.count_cons]
      omega

/-- When the backward search fails, the list holds no newline. -/
theorem rfind_go_none : ∀ (l : List Char), rfind_go l = none →
    ∀ (i : Nat), l[i]? ≠ some '\n' := by
  intro l
  induction l with
  | nil => intro _ i; simp
  | cons c rest ih =>
    intro h i
    rw [rfind_go] at h
    cases hr : rfind_go rest with
    | some j => rw [hr] at h; exact absurd h (by simp)
    | none =>
      rw [hr] at h
      have hc : (c == '\n') = false := by
        by_contra hcc
        simp only [Bool.not_eq_false] at hcc
        rw [if_pos hcc] at h
        exact absurd h (by simp)
      cases i with
      | zero =>
        simp only [List.getElem?_cons_zero]
        intro he
        cases he
        simp at hc
      | succ i => simpa using ih hr i

/-- When the backward search returns `j`, position `j` holds a newline and no
later position does. -/
theorem rfind_go_some : ∀ (l : List Char) (j : Nat), rfind_go l = some j →
    l[j]? = some '\n' ∧ ∀ (i : Nat), j < i → l[i]? ≠ some '\n' := by
  intro l
  induction l with
  | nil => intro j h; simp [rfind_go] at h
  | cons c rest ih =>
    intro j h
    rw [rfind_go] at h
    cases hr : rfind_go rest with
    | some j2 =>
      rw [hr] at h
      cases h
      obtain ⟨h1, h2⟩ := ih j2 hr
      refine ⟨by simpa using h1, fun i hi => ?_⟩
      cases i with
      | zero => omega
      | succ i =>
        simp only [List.getElem?_cons_succ]
        exact h2 i (by omega)
    | none =>
      rw [hr] at h
      by_cases hc : (c == '\n') = true
      · rw [if_pos hc] at h
        cases h
        refine ⟨by simpa using hc, fun i hi => ?_⟩
        cases i with
        | zero => omega
        | succ i => simpa using rfind_go_none rest hr i
      · rw [if_neg hc] at h
        exact absurd h (by simp)

/-- Claim C5: for every input and every token produced by `tokenize` whose
match starts at source offset `k`, the token's line is 1 plus the number of
newlines before offset `k`, and its column is `k` minus the index of the
nearest preceding newline when one exists, else `k + 1`. -/
theorem claim_C5 (s : List Char) (i k : Nat) (lexeme : List Char) (t : Token)
    (h1 : (scan s)[i]? = some (k, lexeme))
    (h2 : (tokenize s)[i]? = some t) :
    t.line = 1 + (s.take k).count '\n' ∧
    (∀ j, j < k → s[j]? = some '\n' →
      (∀ i2, j < i2 → i2 < k → s[i2]? ≠ some '\n') → t.column = k - j) ∧
    ((∀ j, j < k → s[j]? ≠ some '\n') → t.column = k + 1) := by
  have ht : t = Token.mk lexeme (classify lexeme) (count_nl s k + 1)
      (match rfind_nl s k with
       | some j => k - j
       | none => k + 1) := by
    unfold tokenize at h2
    rw [List.getElem?_map, h1] at h2
    simpa using h2.symm
  subst ht
  refine ⟨?_, ?_, ?_⟩
  · show count_nl s k + 1 = 1 + (s.take k).count '\n'
    rw [count_nl_spec]
    omega
  · intro j hjk hnl hmax
    cases hr : rfind_nl s k with
    | none =>
      exfalso
      have := rfind_go_none (s.take k) hr j
      rw [List.getElem?_take_of_lt hjk] at this
      exact this hnl
    | some j0 =>
      obtain ⟨hj0, hj0max⟩ := rfind_go_some (s.take k) j0 hr
      have hj0k : j0 < k := by
        by_contra hge
        rw [List.getElem?_eq_none_iff.mpr (by simp; omega)] at hj0
        cases hj0
      rw [List.getElem?_take_of_lt hj0k] at hj0
      have : j = j0 := by
        rcases Nat.lt_trichotomy j j0 with h | h | h
        · exact absurd hj0 (hmax j0 h hj0k)
        · exact h
        · exfalso
          have := hj0max j h
          rw [List.getElem?_take_of_lt hjk] at this
          exact this hnl
      subst this
      simp [hr]
  · intro hno
    cases hr : rfind_nl s k with
    | none => simp [hr]
    | some j0 =>
      exfalso
      obtain ⟨hj0, _⟩ := rfind_go_some (s.take k) j0 hr
      have hj0k : j0 < k := by
        by_contra hge
        rw [List.getElem?_eq_none_iff.mpr (by simp; omega)] at hj0
        cases hj0
      rw [List.getElem?_take_of_lt hj0k] at hj0
      exact hno j0 hj0k hj0

/-- Witness for claim C5 at a concrete input: in `"a\nb"` the token `b`
starts at offset 2; its line is 2 and its column is `2 - 1 = 1`, the nearest
preceding newline being at index 1. -/
theorem claim_C5_witness :
    (⟨['b'], .IDENTIFIER, 2, 1⟩ : Token).line = 1 + (((lx "a\nb").take 2).count '\n') ∧
    (⟨['b'], .IDENTIFIER, 2, 1⟩ : Token).column = 2 - 1 := by
  have h := claim_C5 (lx "a\nb") 2 2 ['b'] ⟨['b'], .IDENTIFIER, 2, 1⟩
    (by decide) (by decide)
  exact ⟨h.1, h.2.1 1 (by decide) (by decide) (fun i2 ha hb => by omega)⟩

/-! ## Analysis of the scanning alternation -/

/-- Taking a prefix of the length of `takeWhile` recovers `takeWhile`. -/
theorem take_length_takeWhile {α : Type} (p : α → Bool) :
    ∀ l : List α, l.take (l.takeWhile p).length = l.takeWhile p := by
  intro l
  induction l with
  | nil => rfl
  | cons c rest ih =>
    by_cases h : p c <;> simp [List.takeWhile_cons, h, ih]

/-- Unfolding an ordered alternation step. -/
theorem orElse_some {o : Option Nat} {f : Unit → Option Nat} {n : Nat}
    (h : o.orElse f = some n) : o = some n ∨ (o = none ∧ f () = some n) := by
  cases o with
  | none => exact Or.inr ⟨rfl, h⟩
  | some m => exact Or.inl h

/-- Bounds for the single-line-comment alternative. -/
theorem alt_line_comment_bounds {l : List Char} {n : Nat}
    (h : alt_line_comment l = some n) : 1 ≤ n ∧ n ≤ l.length := by
  rw [alt_line_comment.eq_def] at h
  split at h
  · rename_i rest
    cases h
    have hle := (List.takeWhile_prefix (l := rest) (fun c => c != '\n')).length_le
    simp only [List.length_cons]
    omega
  · cases h

/-- Finding `*/` yields an offset at least two short of the length. -/
theorem find_close_le : ∀ (l : List Char) (m : Nat),
    find_close l = some m → m + 2 ≤ l.length := by
  intro l
  induction l with
  | nil => intro m h; cases h
  | cons c rest ih =>
    intro m h
    rw [find_close] at h
    split at h
    · cases h
      rename_i hc
      obtain ⟨rest2, hr⟩ : ∃ rest2, rest = '/' :: rest2 := by
        simp only [Bool.and_eq_true, beq_iff_eq] at hc
        obtain ⟨-, hh⟩ := hc
        cases rest with
        | nil => simp at hh
        | cons x xs =>
          simp only [List.head?_cons, Option.some.injEq] at hh
          exact ⟨xs, by rw [hh]⟩
      subst hr
      simp
    · obtain ⟨m2, hm2, rfl⟩ := Option.map_eq_some'.mp h
      have := ih m2 hm2
      simp only [List.length_cons]
      omega

/-- The prefix up to a found `*/` decomposes as the text before it plus the
two closing characters. -/
theorem find_close_take : ∀ (l : List Char) (m : Nat),
    find_close l = some m → l.take (m + 2) = l.take m ++ ['*', '/'] := by
  intro l
  induction l with
  | nil => intro m h; cases h
  | cons c rest ih =>
    intro m h
    rw [find_close] at h
    split at h
    · cases h
      rename_i hc
      simp only [Bool.and_eq_true, beq_iff_eq] at hc
      obtain ⟨hc1, hh⟩ := hc
      obtain ⟨rest2, hr⟩ : ∃ rest2, rest = '/' :: rest2 := by
        cases rest with
        | nil => simp at hh
        | cons x xs =>
          simp only [List.head?_cons, Option.some.injEq] at hh
          exact ⟨xs, by rw [hh]⟩
      subst hr hc1
      rfl
    · obtain ⟨m2, hm2, rfl⟩ := Option.map_eq_some'.mp h
      have := ih m2 hm2
      simp only [List.take_succ_cons, this, List.cons_append]

/-- Bounds for the block-comment alternative. -/
theorem alt_block_comment_bounds {l : List Char} {n : Nat}
    (h : alt_block_comment l = some n) : 1 ≤ n ∧ n ≤ l.length := by
  rw [alt_block_comment.eq_def] at h
  split at h
  · rename_i rest
    obtain ⟨m, hm, rfl⟩ := Option.map_eq_some'.mp h
    have := find_close_le _ m hm
    simp only [List.length_cons]
    omega
  · cases h

/-- Bounds for the character-constant alternative. -/
theorem alt_char_const_bounds {l : List Char} {n : Nat}
    (h : alt_char_const l = some n) : 1 ≤ n ∧ n ≤ l.length := by
  rw [alt_char_const.eq_def] at h
  split at h
  · split at h
    · cases h
    · cases h
      simp only [List.length_cons]
      omega
  · cases h

/-- Bounds for the numeric-constant alternative. -/
theorem alt_numeric_bounds {l : List Char} {n : Nat}
    (h : alt_numeric l = some n) : 1 ≤ n ∧ n ≤ l.length := by
  unfold alt_numeric at h
  dsimp only at h
  have hd := (List.takeWhile_prefix (l := l) is_ascii_digit).length_le
  split at h
  · cases h
  · rename_i hdz
    simp only [beq_iff_eq] at hdz
    split at h
    · rename_i r2 heq
      have hr2 : (l.drop (l.takeWhile is_ascii_digit).length).length = r2.length + 1 := by
        rw [heq]
        rfl
      rw [List.length_drop] at hr2
      have hd2 := (List.takeWhile_prefix (l := r2) is_ascii_digit).length_le
      split at h <;> cases h <;> omega
    · cases h
      omega

/-- Bounds for the identifier alternative. -/
theorem alt_ident_bounds {l : List Char} {n : Nat}
    (h : alt_ident l = some n) : 1 ≤ n ∧ n ≤ l.length := by
  rw [alt_ident.eq_def] at h
  split at h
  · cases h
  · split at h
    · cases h
      rename_i c rest _
      have := (List.takeWhile_prefix (l := rest) is_word_char).length_le
      simp only [List.length_cons]
      omega
    · cases h

/-- Bounds for the multi-character-operator alternative. -/
theorem alt_multi_op_bounds {l : List Char} {n : Nat}
    (h : alt_multi_op l = some n) : 1 ≤ n ∧ n ≤ l.length := by
  unfold alt_multi_op at h
  split at h
  · cases h
    rename_i hany
    obtain ⟨op, hop, hpre⟩ := List.any_eq_true.mp hany
    have h2 : op.length = 2 := by
      fin_cases hop <;> rfl
    have := List.IsPrefix.length_le (List.isPrefixOf_iff_prefix.mp hpre)
    omega
  · cases h

/-- Bounds for the single-character-operator alternative. -/
theorem alt_single_op_bounds {l : List Char} {n : Nat}
    (h : alt_single_op l = some n) : 1 ≤ n ∧ n ≤ l.length := by
  rw [alt_single_op.eq_def] at h
  split at h
  · split at h
    · cases h
      simp only [List.length_cons]
      omega
    · cases h
  · cases h

/-- Bounds for the special-character alternative. -/
theorem alt_special_bounds {l : List Char} {n : Nat}
    (h : alt_special l = some n) : 1 ≤ n ∧ n ≤ l.length := by
  rw [alt_special.eq_def] at h
  split at h
  · split at h
    · cases h
      simp only [List.length_cons]
      omega
    · cases h
  · cases h

/-- Bounds for the whitespace alternative. -/
theorem alt_whitespace_bounds {l : List Char} {n : Nat}
    (h : alt_whitespace l = some n) : 1 ≤ n ∧ n ≤ l.length := by
  unfold alt_whitespace at h
  dsimp only at h
  have := (List.takeWhile_prefix (l := l) py_isspace).length_le
  split at h
  · cases h
  · cases h
    rename_i hz
    simp only [beq_iff_eq] at hz
    omega

/-- Which alternative produced a match: the ordered alternation
decomposed. -/
theorem match_at_cases {l : List Char} {n : Nat} (h : match_at l = some n) :
    alt_line_comment l = some n ∨ alt_block_comment l = some n ∨
    alt_char_const l = some n ∨ alt_numeric l = some n ∨
    alt_ident l = some n ∨ alt_multi_op l = some n ∨
    alt_single_op l = some n ∨ alt_special l = some n ∨
    alt_whitespace l = some n := by
  unfold match_at at h
  rcases orElse_some h with h | ⟨_, h⟩
  · exact Or.inl h
  rcases orElse_some h with h | ⟨_, h⟩
  · exact Or.inr (Or.inl h)
  rcases orElse_some h with h | ⟨_, h⟩
  · exact Or.inr (Or.inr (Or.inl h))
  rcases orElse_some h with h | ⟨_, h⟩
  · exact Or.inr (Or.inr (Or.inr (Or.inl h)))
  rcases orElse_some h with h | ⟨_, h⟩
  · exact Or.inr (Or.inr (Or.inr (Or.inr (Or.inl h))))
  rcases orElse_some h with h | ⟨_, h⟩
  · exact Or.inr (Or.inr (Or.inr (Or.inr (Or.inr (Or.inl h)))))
  rcases orElse_some h with h | ⟨_, h⟩
  · exact Or.inr (Or.inr (Or.inr (Or.inr (Or.inr (Or.inr (Or.inl h))))))
  rcases orElse_some h with h | ⟨_, h⟩
  · exact Or.inr (Or.inr (Or.inr (Or.inr (Or.inr (Or.inr (Or.inr (Or.inl h)))))))
  exact Or.inr (Or.inr (Or.inr (Or.inr (Or.inr (Or.inr (Or.inr (Or.inr h)))))))

/-- Every match of the alternation consumes at least one and at most all
remaining characters. -/
theorem match_at_bounds {l : List Char} {n : Nat} (h : match_at l = some n) :
    1 ≤ n ∧ n ≤ l.length := by
  rcases match_at_cases h with h | h | h | h | h | h | h | h | h
  · exact alt_line_comment_bounds h
  · exact alt_block_comment_bounds h
  · exact alt_char_const_bounds h
  · exact alt_numeric_bounds h
  · exact alt_ident_bounds h
  · exact alt_multi_op_bounds h
  · exact alt_single_op_bounds h
  · exact alt_special_bounds h
  · exact alt_whitespace_bounds h

/-- Weakening the lower bound of a well-formed span list. -/
theorem spans_from_mono {s : List Char} {lo lo2 : Nat} (hle : lo ≤ lo2) :
    ∀ {t : List (Nat × List Char)}, spans_from s lo2 t → spans_from s lo t := by
  intro t
  cases t with
  | nil => intro h; trivial
  | cons p rest =>
    intro h
    obtain ⟨h1, h2, h3, h4⟩ := h
    exact ⟨by omega, h2, h3, h4⟩

/-- Spans produced by the scan are well-formed: the lexemes of
`scan_aux` over the suffix of `s` at offset `i` are ordered, non-overlapping
slices of `s`. -/
theorem scan_aux_spans : ∀ (fuel : Nat) (s : List Char) (i : Nat),
    spans_from s i (scan_aux fuel (s.drop i) i) := by
  intro fuel
  induction fuel with
  | zero => intro s i; rw [scan_aux]; trivial
  | succ fuel ih =>
    intro s i
    cases hd : s.drop i with
    | nil => rw [scan_aux]; trivial
    | cons c rest =>
      rw [scan_aux]
      cases hm : match_at (c :: rest) with
      | none =>
        dsimp only
        have hrest : rest = s.drop (i + 1) := by
          have h1 : (s.drop i).drop 1 = s.drop (i + 1) := by
            rw [List.drop_drop]
          rw [hd] at h1
          simpa using h1
        rw [hrest]
        exact spans_from_mono (by omega) (ih s (i + 1))
      | some n =>
        dsimp only
        obtain ⟨hn1, hn2⟩ := match_at_bounds hm
        have hlen : ((c :: rest).take n).length = n := by
          rw [List.length_take]
          omega
        refine ⟨Nat.le_refl _, ?_, ?_, ?_⟩
        · cases n with
          | zero => omega
          | succ n => simp
        · rw [hlen, hd]
        · rw [hlen]
          have hdrop : (c :: rest).drop n = s.drop (i + n) := by
            have h1 : (s.drop i).drop n = s.drop (i + n) := by
              rw [List.drop_drop]
            rw [hd] at h1
            exact h1
          rw [hdrop]
          exact ih s (i + n)

/-- Claim C1 as amended: `tokenize` emits its tokens in source order with
non-overlapping spans, each lexeme being exactly the source slice at its
span — but coverage may have gaps: a span matched by no alternative is
silently skipped (`re.finditer` produces no token and no error there), so
concatenating lexemes reproduces only the matched portion of the source
(the counterexample `"@"` shows a gap and no LexError). -/
theorem claim_C1_amended (s : List Char) :
    spans_from s 0 (scan s) ∧
    (tokenize s).map Token.value = (scan s).map Prod.snd := by
  constructor
  · have h := scan_aux_spans (s.length + 1) s 0
    rw [List.drop_zero] at h
    exact h
  · unfold tokenize
    rw [List.map_map]
    rfl

/-! ## Claim C4: every alternation lexeme satisfies a predicate, except the
quoted newline -/

/-- A nonempty all-digit lexeme satisfies the numeric-constant core. -/
theorem num_core_all_digits {D : List Char} (h1 : D ≠ [])
    (h2 : D.all is_ascii_digit = true) : num_core D = true := by
  unfold num_core
  dsimp only
  have hself : D.takeWhile is_ascii_digit = D := by
    rw [List.takeWhile_eq_self_iff]
    simpa using h2
  rw [hself, List.drop_length]
  have : 0 < D.length := List.length_pos.mpr h1
  simp [this]

/-- An all-digit lexeme, a dot, and another all-digit lexeme satisfy the
numeric-constant core. -/
theorem num_core_float {D D2 : List Char} (h1 : D ≠ [])
    (h2 : D.all is_ascii_digit = true) (h3 : D2 ≠ [])
    (h4 : D2.all is_ascii_digit = true) : num_core (D ++ '.' :: D2) = true := by
  unfold num_core
  dsimp only
  have hself : D.takeWhile is_ascii_digit = D := by
    rw [List.takeWhile_eq_self_iff]
    simpa using h2
  have htw : (D ++ '.' :: D2).takeWhile is_ascii_digit = D := by
    rw [List.takeWhile_append]
    have hdot : ('.' :: D2).takeWhile is_ascii_digit = [] := by
      rw [List.takeWhile_cons]
      simp [is_ascii_digit]
    rw [hself, hdot]
    simp
  rw [htw, List.drop_left]
  have : 0 < D.length := List.length_pos.mpr h1
  simp [this, h3, h4]

/-- The single-line-comment alternative produces a comment lexeme. -/
theorem alt_line_comment_pred {l : List Char} {n : Nat}
    (h : alt_line_comment l = some n) : is_comment (l.take n) = true := by
  rw [alt_line_comment.eq_def] at h
  split at h
  · cases h
    rename_i rest
    have e : 2 + (rest.takeWhile (fun c => c != '\n')).length =
        (rest.takeWhile (fun c => c != '\n')).length + 1 + 1 := by omega
    rw [e, List.take_succ_cons, List.take_succ_cons]
    unfold is_comment
    simp [List.isPrefixOf]
  · cases h

/-- The block-comment alternative produces a comment lexeme. -/
theorem alt_block_comment_pred {l : List Char} {n : Nat}
    (h : alt_block_comment l = some n) : is_comment (l.take n) = true := by
  rw [alt_block_comment.eq_def] at h
  split at h
  · rename_i rest
    obtain ⟨m, hm, rfl⟩ := Option.map_eq_some'.mp h
    have htake := find_close_take rest m hm
    have : (4 + m) = (m + 2) + 2 := by omega
    rw [this]
    simp only [List.take_succ_cons, htake]
    unfold is_comment
    apply Bool.or_eq_true_iff.mpr
    refine Or.inr (Bool.and_eq_true_iff.mpr ⟨by simp [List.isPrefixOf], ?_⟩)
    rw [List.isSuffixOf_iff_suffix]
    have : '/' :: '*' :: (rest.take m ++ ['*', '/']) =
        ('/' :: '*' :: rest.take m) ++ "*/".toList := by simp
    rw [this]
    exact List.suffix_append _ _
  · cases h

/-- The character-constant alternative produces either the quoted newline or
a lexeme accepted by `is_character_constant`. -/
theorem alt_char_const_pred {l : List Char} {n : Nat}
    (h : alt_char_const l = some n) :
    l.take n = ['\'', '\n', '\''] ∨ is_character_constant (l.take n) = true := by
  rw [alt_char_const.eq_def] at h
  split at h
  · rename_i c rest
    split at h
    · cases h
    · cases h
      by_cases hc : c = '\n'
      · subst hc
        exact Or.inl rfl
      · refine Or.inr ?_
        simp only [List.take_succ_cons, List.take_zero]
        unfold is_character_constant re_fullmatch
        apply Bool.or_eq_true_iff.mpr
        refine Or.inl ?_
        show char_core ['\'', c, '\''] = true
        have : char_core ['\'', c, '\''] = (c != '\n') := rfl
        rw [this]
        simpa using hc
  · cases h

/-- The numeric alternative produces a lexeme accepted by
`is_numeric_constant`. -/
theorem alt_numeric_pred {l : List Char} {n : Nat}
    (h : alt_numeric l = some n) : is_numeric_constant (l.take n) = true := by
  unfold alt_numeric at h
  dsimp only at h
  have hself := take_length_takeWhile is_ascii_digit l
  have hall := List.all_takeWhile (l := l) (p := is_ascii_digit)
  split at h
  · cases h
  · rename_i hdz
    simp only [beq_iff_eq] at hdz
    have hne : l.takeWhile is_ascii_digit ≠ [] := by
      intro hcon
      rw [hcon] at hdz
      simp at hdz
    split at h
    · rename_i r2 heq
      have hall2 := List.all_takeWhile (l := r2) (p := is_ascii_digit)
      split at h
      · cases h
        unfold is_numeric_constant re_fullmatch
        apply Bool.or_eq_true_iff.mpr
        exact Or.inl (by rw [hself]; exact num_core_all_digits hne hall)
      · cases h
        rename_i hd2z
        simp only [beq_iff_eq] at hd2z
        have hne2 : r2.takeWhile is_ascii_digit ≠ [] := by
          intro hcon
          rw [hcon] at hd2z
          simp at hd2z
        have e1 : l.take ((l.takeWhile is_ascii_digit).length + 1 +
            (r2.takeWhile is_ascii_digit).length) =
            l.take (l.takeWhile is_ascii_digit).length ++
              (l.drop (l.takeWhile is_ascii_digit).length).take
                (1 + (r2.takeWhile is_ascii_digit).length) := by
          rw [← List.take_add]
          congr 1
          omega
        rw [e1, hself, heq]
        have e2 : ('.' :: r2).take (1 + (r2.takeWhile is_ascii_digit).length) =
            '.' :: r2.take (r2.takeWhile is_ascii_digit).length := by
          rw [Nat.add_comm, List.take_succ_cons]
        rw [e2, take_length_takeWhile]
        unfold is_numeric_constant re_fullmatch
        apply Bool.or_eq_true_iff.mpr
        exact Or.inl (num_core_float hne hall hne2 hall2)
    · cases h
      unfold is_numeric_constant re_fullmatch
      apply Bool.or_eq_true_iff.mpr
      exact Or.inl (by rw [hself]; exact num_core_all_digits hne hall)

/-- The identifier alternative produces a lexeme accepted by
`is_identifier`. -/
theorem alt_ident_pred {l : List Char} {n : Nat}
    (h : alt_ident l = some n) : is_identifier (l.take n) = true := by
  rw [alt_ident.eq_def] at h
  split at h
  · cases h
  · rename_i c rest
    split at h
    · cases h
      rename_i hc
      have e : 1 + (List.takeWhile is_word_char rest).length =
          (List.takeWhile is_word_char rest).length + 1 := by omega
      rw [e, List.take_succ_cons, take_length_takeWhile]
      unfold is_identifier re_fullmatch
      apply Bool.or_eq_true_iff.mpr
      refine Or.inl ?_
      unfold ident_core
      exact Bool.and_eq_true_iff.mpr ⟨hc, List.all_takeWhile⟩
    · cases h

/-- The multi-character-operator alternative produces an operator lexeme. -/
theorem alt_multi_op_pred {l : List Char} {n : Nat}
    (h : alt_multi_op l = some n) : is_operator (l.take n) = true := by
  unfold alt_multi_op at h
  split at h
  · cases h
    rename_i hany
    obtain ⟨op, hop, hpre⟩ := List.any_eq_true.mp hany
    obtain ⟨t, rfl⟩ := List.isPrefixOf_iff_prefix.mp hpre
    have h2 : op.length = 2 := by fin_cases hop <;> rfl
    rw [← h2, List.take_left]
    have hops : multi_ops.all (fun o => is_operator o) = true := by decide
    exact List.all_eq_true.mp hops op hop
  · cases h

/-- The single-character-operator alternative produces an operator lexeme. -/
theorem alt_single_op_pred {l : List Char} {n : Nat}
    (h : alt_single_op l = some n) : is_operator (l.take n) = true := by
  rw [alt_single_op.eq_def] at h
  split at h
  · rename_i c rest
    split at h
    · cases h
      rename_i hc
      have hops : single_op_chars.all (fun c => is_operator [c]) = true := by decide
      simpa using List.all_eq_true.mp hops c (by simpa using hc)
    · cases h
  · cases h

/-- The special-character alternative produces a special-character lexeme. -/
theorem alt_special_pred {l : List Char} {n : Nat}
    (h : alt_special l = some n) : is_special_character (l.take n) = true := by
  rw [alt_special.eq_def] at h
  split at h
  · rename_i c rest
    split at h
    · cases h
      rename_i hc
      have hsp : special_scan_chars.all (fun c => is_special_character [c]) = true := by
        decide
      simpa using List.all_eq_true.mp hsp c (by simpa using hc)
    · cases h
  · cases h

/-- The whitespace alternative produces a lexeme accepted by
`is_whitespace`. -/
theorem alt_whitespace_pred {l : List Char} {n : Nat}
    (h : alt_whitespace l = some n) : is_whitespace (l.take n) = true := by
  unfold alt_whitespace at h
  dsimp only at h
  split at h
  · cases h
  · cases h
    rename_i hz
    simp only [beq_iff_eq] at hz
    rw [take_length_takeWhile]
    unfold is_whitespace
    apply Bool.and_eq_true_iff.mpr
    refine ⟨?_, List.all_takeWhile⟩
    have : l.takeWhile py_isspace ≠ [] := by
      intro hcon
      rw [hcon] at hz
      simp at hz
    simpa [List.isEmpty_iff] using this

/-- Every lexeme emitted by the alternation either is the quoted newline or
satisfies at least one of the nine scanner predicates. -/
theorem match_at_pred {l : List Char} {n : Nat} (h : match_at l = some n) :
    l.take n = ['\'', '\n', '\''] ∨ some_predicate_accepts (l.take n) = true := by
  have acc : ∀ {w : List Char}, is_comment w = true ∨ is_keyword w = true ∨
      is_operator w = true ∨ is_special_character w = true ∨
      is_character_constant w = true ∨ is_numeric_constant w = true ∨
      is_identifier w = true ∨ is_whitespace w = true ∨ is_newline w = true →
      some_predicate_accepts w = true := by
    intro w hw
    unfold some_predicate_accepts
    rcases hw with h | h | h | h | h | h | h | h | h <;> simp [h]
  rcases match_at_cases h with h | h | h | h | h | h | h | h | h
  · exact Or.inr (acc (Or.inl (alt_line_comment_pred h)))
  · exact Or.inr (acc (Or.inl (alt_block_comment_pred h)))
  · rcases alt_char_const_pred h with h | h
    · exact Or.inl h
    · exact Or.inr (acc (Or.inr (Or.inr (Or.inr (Or.inr (Or.inl h))))))
  · exact Or.inr (acc (Or.inr (Or.inr (Or.inr (Or.inr (Or.inr (Or.inl (alt_numeric_pred h))))))))
  · exact Or.inr (acc (Or.inr (Or.inr (Or.inr (Or.inr (Or.inr (Or.inr (Or.inl (alt_ident_pred h)))))))))
  · exact Or.inr (acc (Or.inr (Or.inr (Or.inl (alt_multi_op_pred h)))))
  · exact Or.inr (acc (Or.inr (Or.inr (Or.inl (alt_single_op_pred h)))))
  · exact Or.inr (acc (Or.inr (Or.inr (Or.inr (Or.inl (alt_special_pred h))))))
  · exact Or.inr (acc (Or.inr (Or.inr (Or.inr (Or.inr (Or.inr (Or.inr (Or.inr (Or.inl (alt_whitespace_pred h))))))))))

/-- Any property of alternation matches transfers to every lexeme the scan
emits. -/
theorem scan_aux_lexeme_prop {P : List Char → Prop}
    (hP : ∀ (l : List Char) (n : Nat), match_at l = some n → P (l.take n)) :
    ∀ (fuel : Nat) (l : List Char) (i k : Nat) (lexeme : List Char),
      (k, lexeme) ∈ scan_aux fuel l i → P lexeme := by
  intro fuel
  induction fuel with
  | zero => intro l i k lexeme h; rw [scan_aux] at h; simp at h
  | succ fuel ih =>
    intro l i k lexeme h
    cases l with
    | nil => rw [scan_aux] at h; simp at h
    | cons c rest =>
      rw [scan_aux] at h
      cases hm : match_at (c :: rest) with
      | none =>
        rw [hm] at h
        exact ih rest (i + 1) k lexeme h
      | some n =>
        rw [hm] at h
        rcases List.mem_cons.mp h with he | hmem
        · cases he
          exact hP (c :: rest) n hm
        · exact ih ((c :: rest).drop n) (i + n) k lexeme hmem

/-- Claim C4 as amended: every lexeme produced by the scanning alternation
satisfies at least one of the nine category predicates, with a single
exception — the character-constant match `'` newline `'` — on which the
fallback-IDENTIFIER branch of the classification chain is reached; the
fallback is therefore reachable, but only by that lexeme. -/
theorem claim_C4_amended (s : List Char) (k : Nat) (lexeme : List Char)
    (h : (k, lexeme) ∈ scan s) :
    lexeme = ['\'', '\n', '\''] ∨ some_predicate_accepts lexeme = true :=
  scan_aux_lexeme_prop
    (P := fun w => w = ['\'', '\n', '\''] ∨ some_predicate_accepts w = true)
    (fun _ _ hm => match_at_pred hm) (s.length + 1) s 0 k lexeme h

/-- Witness for claim C4 as amended: the lexeme `x` of `scan "x"` satisfies a
predicate. -/
theorem claim_C4_amended_witness :
    ['x'] = ['\'', '\n', '\''] ∨ some_predicate_accepts ['x'] = true :=
  claim_C4_amended (lx "x") 0 ['x'] (by decide)

/-! ## Claim C6 -/

/-- Model of `peek` from an already-skipped cursor sees the same tokens. -/
theorem peek_skip_trivia (ts : List Token) (pos n : Nat) :
    peek ts (skip_trivia ts pos) n = peek ts pos n := by
  unfold peek
  rw [skip_trivia_idem]

/-- Claim C6: when an expression begins with an identifier, the parser
decides between AssignExpr and OrExpr by peeking one token past the leading
identifier for `=`; whenever `=` is absent at that point the identifier is
not consumed and the OrExpr derivation is entered with the cursor still at
(before) the identifier, so the identifier is re-parsed as a Factor; and the
nested assignment statement `a = b = 3;` inside a function body is
accepted. -/
theorem claim_C6 :
    (∀ (fuel : Nat) (ts : List Token) (pos : Nat) (t : Token),
      peek ts pos 0 = some t → t.type = .IDENTIFIER →
      (match peek ts pos 1 with
       | some t2 => t2.value ≠ lx "="
       | none => True) →
      parse_assign_expr (fuel + 1) ts pos = parse_or_expr fuel ts (skip_trivia ts pos)) ∧
    run_main (lx "int main(void)\x7ba = b = 3;\x7d") = true := by
  constructor
  · intro fuel ts pos t hpk hty hne
    have hp0 : ts[skip_trivia ts pos]? = some t := by
      simpa [peek] using hpk
    have hx : (match peek ts (skip_trivia ts pos) 1 with
        | some t2 => t2.value == lx "="
        | none => false) = false := by
      rw [peek_skip_trivia]
      cases hpk1 : peek ts pos 1 with
      | none => rfl
      | some t2 =>
        rw [hpk1] at hne
        simpa using hne
    rw [parse_assign_expr]
    dsimp only
    rw [hp0]
    dsimp only
    rw [hx]
    simp [hty]
  · decide

/-- Witness for claim C6 at a concrete state: on the token stream of `"b;"`
the leading identifier is not followed by `=`, and `parse_assign_expr`
coincides with `parse_or_expr` from the cursor at the identifier. -/
theorem claim_C6_witness :
    parse_assign_expr 4 (tokenize (lx "b;")) 0 =
      parse_or_expr 3 (tokenize (lx "b;")) (skip_trivia (tokenize (lx "b;")) 0) :=
  claim_C6.1 3 (tokenize (lx "b;")) 0 ⟨['b'], .IDENTIFIER, 1, 1⟩
    (by decide) (by decide)
    (by rw [show peek (tokenize (lx "b;")) 0 1 =
          some ⟨lx ";", .SPECIAL_CHARACTER, 1, 2⟩ from by decide]
        decide)

/-! ## Claim C9: cursor bounds and monotonicity -/


/-- Calling a `stays` routine from a later cursor keeps the bound from the
earlier one. -/
theorem stays_call {g : List Token → Nat → Res} (hg : stays g) {ts : List Token}
    {pos p : Nat} (h1 : pos ≤ p) (h2 : p ≤ ts.length) :
    pos ≤ (g ts p).pos ∧ (g ts p).pos ≤ ts.length :=
  ⟨le_trans h1 (hg ts p h2).1, (hg ts p h2).2⟩

/-- Model of `skip_trivia` keeps the cursor within bounds. -/
theorem skip_stays (ts : List Token) (pos : Nat) (h : pos ≤ ts.length) :
    pos ≤ skip_trivia ts pos ∧ skip_trivia ts pos ≤ ts.length := by
  obtain ⟨h1, h2, -, -⟩ := skip_trivia_props ts pos
  rw [Nat.max_eq_right h] at h2
  exact ⟨h1, h2⟩

/-- Sequencing preserves the cursor bounds. -/
theorem bind_stays {ts : List Token} {pos : Nat} {r : Res} {f : Nat → Res}
    (h1 : pos ≤ r.pos ∧ r.pos ≤ ts.length)
    (h2 : ∀ p, pos ≤ p → p ≤ ts.length → p ≤ (f p).pos ∧ (f p).pos ≤ ts.length) :
    pos ≤ (r.bind f).pos ∧ (r.bind f).pos ≤ ts.length := by
  cases r with
  | ok p =>
    obtain ⟨ha, hb⟩ := h2 p h1.1 h1.2
    exact ⟨le_trans h1.1 ha, hb⟩
  | err p => exact h1
  | noFuel p => exact h1

/-- Model of `expect` keeps the cursor within bounds in every outcome. -/
theorem expect_pos_stays (ts : List Token) (pos : Nat) (type? : Option TokenType)
    (lexeme? : Option (List Char)) (adv : Bool) (h : pos ≤ ts.length) :
    pos ≤ (expect ts pos type? lexeme? adv).2 ∧
      (expect ts pos type? lexeme? adv).2 ≤ ts.length := by
  have hsk := skip_stays ts pos h
  unfold expect
  dsimp only
  cases hp : ts[skip_trivia ts pos]? with
  | none => dsimp only; exact hsk
  | some t =>
    have hlt := (List.getElem?_eq_some.mp hp).1
    dsimp only
    split
    · exact hsk
    · split
      · exact hsk
      · split
        · dsimp only
          exact ⟨by omega, by omega⟩
        · dsimp only
          exact hsk

/-- Model of `expectR` keeps the cursor within bounds. -/
theorem expectR_stays (type? : Option TokenType) (lexeme? : Option (List Char)) :
    stays (fun ts pos => expectR ts pos type? lexeme?) := by
  intro ts pos h
  have he := expect_pos_stays ts pos type? lexeme? true h
  unfold expectR
  dsimp only
  cases hp : expect ts pos type? lexeme? true with
  | mk r q =>
    rw [hp] at he
    dsimp only at he
    cases r with
    | ok t => dsimp only; exact he
    | error e => dsimp only; exact he

/-- Model of `advance` keeps the cursor within bounds. -/
theorem advance_pos (ts : List Token) (pos : Nat) (h : pos ≤ ts.length) :
    pos ≤ (advance ts pos).2 ∧ (advance ts pos).2 ≤ ts.length := by
  have hsk := skip_stays ts pos h
  unfold advance
  dsimp only
  cases hp : ts[skip_trivia ts pos]? with
  | none => dsimp only; exact hsk
  | some t =>
    have hlt := (List.getElem?_eq_some.mp hp).1
    dsimp only
    exact ⟨by omega, by omega⟩

/-- The `advance`-then-`ok` shape of `parse_type_spec`, `parse_param_list`,
`parse_rel_op` and `parse_add_expr_tail`. -/
theorem advance_ok_stays : stays (fun ts pos => Res.ok (advance ts pos).2) := by
  intro ts pos h
  exact advance_pos ts pos h

/-- The `expect_eof`-dispatch shape of `parse_program`. -/
theorem expect_eof_match_stays : stays (fun ts pos =>
    match expect_eof ts pos with
    | (.ok _, p3) => Res.ok p3
    | (.error _, p3) => Res.err p3) := by
  intro ts pos h
  have hsk := skip_stays ts pos h
  unfold expect_eof
  dsimp only
  cases hp : ts[skip_trivia ts pos]? with
  | none => dsimp only; exact hsk
  | some t => dsimp only; exact hsk

/-- Every grammar routine keeps the cursor within `[pos, length]`: the
cursor never moves backwards across a routine (the saved-cursor rollback
in `parse_assign_expr` only restores a position at or after the entry
cursor) and never exceeds the token count. -/
theorem parser_stays : ∀ fuel : Nat,
    stays (parse_program fuel) ∧
    stays (parse_decl_list fuel) ∧
    stays (parse_decl fuel) ∧
    stays (parse_var_decl fuel) ∧
    stays (parse_var_decl_tail fuel) ∧
    stays (parse_param_list fuel) ∧
    stays (parse_param_list_tail fuel) ∧
    stays (parse_type_spec fuel) ∧
    stays (parse_compound_stmt fuel) ∧
    stays (parse_local_decl_list fuel) ∧
    stays (parse_stmt_list fuel) ∧
    stays (parse_stmt fuel) ∧
    stays (parse_expr_stmt fuel) ∧
    stays (parse_if_stmt fuel) ∧
    stays (parse_else_part fuel) ∧
    stays (parse_while_stmt fuel) ∧
    stays (parse_for_stmt fuel) ∧
    stays (parse_return_stmt fuel) ∧
    stays (parse_expr_opt fuel) ∧
    stays (parse_expr fuel) ∧
    stays (parse_assign_expr fuel) ∧
    stays (parse_or_expr fuel) ∧
    stays (parse_or_expr_tail fuel) ∧
    stays (parse_and_expr fuel) ∧
    stays (parse_and_expr_tail fuel) ∧
    stays (parse_rel_expr fuel) ∧
    stays (parse_rel_op_tail fuel) ∧
    stays (parse_rel_op fuel) ∧
    stays (parse_add_expr fuel) ∧
    stays (parse_add_expr_tail fuel) ∧
    stays (parse_term fuel) ∧
    stays (parse_term_tail fuel) ∧
    stays (parse_factor fuel) ∧
    stays (parse_factor_tail fuel) ∧
    stays (parse_arg_list fuel) ∧
    stays (parse_arg_list_tail fuel) ∧
    stays (parse_literal fuel) := by
  intro fuel
  induction fuel with
  | zero =>
    refine ⟨?_, ?_, ?_, ?_, ?_, ?_, ?_, ?_, ?_, ?_, ?_, ?_, ?_, ?_, ?_, ?_, ?_, ?_, ?_, ?_, ?_, ?_, ?_, ?_, ?_, ?_, ?_, ?_, ?_, ?_, ?_, ?_, ?_, ?_, ?_, ?_, ?_⟩ <;>
      (intro ts pos hpos
       simp only [parse_program, parse_decl_list, parse_decl, parse_var_decl, parse_var_decl_tail, parse_param_list, parse_param_list_tail, parse_type_spec, parse_compound_stmt, parse_local_decl_list, parse_stmt_list, parse_stmt, parse_expr_stmt, parse_if_stmt, parse_else_part, parse_while_stmt, parse_for_stmt, parse_return_stmt, parse_expr_opt, parse_expr, parse_assign_expr, parse_or_expr, parse_or_expr_tail, parse_and_expr, parse_and_expr_tail, parse_rel_expr, parse_rel_op_tail, parse_rel_op, parse_add_expr, parse_add_expr_tail, parse_term, parse_term_tail, parse_factor, parse_factor_tail, parse_arg_list, parse_arg_list_tail, parse_literal, Res.pos]
       exact ⟨Nat.le_refl _, hpos⟩)
  | succ fuel ih =>
    obtain ⟨ihProgram, ihDeclList, ihDecl, ihVarDecl, ihVarDeclTail, ihParamList, ihParamListTail, ihTypeSpec, ihCompound, ihLocalDeclList, ihStmtList, ihStmt, ihExprStmt, ihIfStmt, ihElsePart, ihWhileStmt, ihForStmt, ihReturnStmt, ihExprOpt, ihExpr, ihAssign, ihOr, ihOrTail, ihAnd, ihAndTail, ihRel, ihRelOpTail, ihRelOp, ihAdd, ihAddTail, ihTerm, ihTermTail, ihFactor, ihFactorTail, ihArgList, ihArgListTail, ihLiteral⟩ := ih
    refine ⟨?_, ?_, ?_, ?_, ?_, ?_, ?_, ?_, ?_, ?_, ?_, ?_, ?_, ?_, ?_, ?_, ?_, ?_, ?_, ?_, ?_, ?_, ?_, ?_, ?_, ?_, ?_, ?_, ?_, ?_, ?_, ?_, ?_, ?_, ?_, ?_, ?_⟩
    · -- parse_program
      intro ts pos hpos
      rw [parse_program]
      try dsimp only
      have hsk := skip_stays ts pos hpos
      cases hp : ts[skip_trivia ts pos]? with
      | none => dsimp only; exact hsk
      | some t =>
        try dsimp only
        split
        · refine bind_stays (stays_call ihDeclList hsk.1 hsk.2) ?_
          intro q0 hq0 hl0
          exact stays_call expect_eof_match_stays (Nat.le_refl _) hl0
        · exact hsk
    · -- parse_decl_list
      intro ts pos hpos
      rw [parse_decl_list]
      try dsimp only
      have hsk := skip_stays ts pos hpos
      cases hp : ts[skip_trivia ts pos]? with
      | none => dsimp only; exact hsk
      | some t =>
        try dsimp only
        split
        · refine bind_stays (stays_call ihDecl hsk.1 hsk.2) ?_
          intro q0 hq0 hl0
          exact stays_call ihDeclList (Nat.le_refl _) hl0
        · exact hsk
    · -- parse_decl
      intro ts pos hpos
      rw [parse_decl]
      try dsimp only
      have hsk := skip_stays ts pos hpos
      cases hp : ts[skip_trivia ts pos]? with
      | none => dsimp only; exact hsk
      | some t =>
        try dsimp only
        split
        · refine bind_stays (stays_call ihTypeSpec hsk.1 hsk.2) ?_
          intro q0 hq0 hl0
          refine bind_stays (stays_call (expectR_stays _ _) (Nat.le_refl _) hl0) ?_
          intro q1 hq1 hl1
          try dsimp only
          have hsk3 := skip_stays ts q1 hl1
          cases hp3 : ts[skip_trivia ts q1]? with
          | none =>
            try dsimp only
            refine bind_stays (stays_call ihVarDeclTail hsk3.1 hsk3.2) ?_
            intro q2 hq2 hl2
            exact stays_call (expectR_stays _ _) (Nat.le_refl _) hl2
          | some t2 =>
            try dsimp only
            split
            · refine bind_stays (stays_call (expectR_stays _ _) hsk3.1 hsk3.2) ?_
              intro q2 hq2 hl2
              refine bind_stays (stays_call ihParamList (Nat.le_refl _) hl2) ?_
              intro q3 hq3 hl3
              refine bind_stays (stays_call (expectR_stays _ _) (Nat.le_refl _) hl3) ?_
              intro q4 hq4 hl4
              exact stays_call ihCompound (Nat.le_refl _) hl4
            · refine bind_stays (stays_call ihVarDeclTail hsk3.1 hsk3.2) ?_
              intro q2 hq2 hl2
              exact stays_call (expectR_stays _ _) (Nat.le_refl _) hl2
        · exact hsk
    · -- parse_var_decl
      intro ts pos hpos
      rw [parse_var_decl]
      try dsimp only
      have hsk := skip_stays ts pos hpos
      cases hp : ts[skip_trivia ts pos]? with
      | none => dsimp only; exact hsk
      | some t =>
        try dsimp only
        split
        · refine bind_stays (stays_call ihTypeSpec hsk.1 hsk.2) ?_
          intro q0 hq0 hl0
          refine bind_stays (stays_call (expectR_stays _ _) (Nat.le_refl _) hl0) ?_
          intro q1 hq1 hl1
          refine bind_stays (stays_call ihVarDeclTail (Nat.le_refl _) hl1) ?_
          intro q2 hq2 hl2
          exact stays_call (expectR_stays _ _) (Nat.le_refl _) hl2
        · exact hsk
    · -- parse_var_decl_tail
      intro ts pos hpos
      rw [parse_var_decl_tail]
      try dsimp only
      have hsk := skip_stays ts pos hpos
      split
      · exact hsk
      · refine bind_stays (stays_call (expectR_stays _ _) hsk.1 hsk.2) ?_
        intro q0 hq0 hl0
        refine bind_stays (stays_call (expectR_stays _ _) (Nat.le_refl _) hl0) ?_
        intro q1 hq1 hl1
        exact stays_call ihVarDeclTail (Nat.le_refl _) hl1
    · -- parse_param_list
      intro ts pos hpos
      rw [parse_param_list]
      try dsimp only
      have hsk := skip_stays ts pos hpos
      cases hp : ts[skip_trivia ts pos]? with
      | none => dsimp only; exact hsk
      | some t =>
        try dsimp only
        split
        · split
          · exact stays_call advance_ok_stays hsk.1 hsk.2
          · exact hsk
        · split
          · refine bind_stays (stays_call ihTypeSpec hsk.1 hsk.2) ?_
            intro q0 hq0 hl0
            refine bind_stays (stays_call (expectR_stays _ _) (Nat.le_refl _) hl0) ?_
            intro q1 hq1 hl1
            exact stays_call ihParamListTail (Nat.le_refl _) hl1
          · exact hsk
    · -- parse_param_list_tail
      intro ts pos hpos
      rw [parse_param_list_tail]
      try dsimp only
      have hsk := skip_stays ts pos hpos
      split
      · exact hsk
      · refine bind_stays (stays_call (expectR_stays _ _) hsk.1 hsk.2) ?_
        intro q0 hq0 hl0
        refine bind_stays (stays_call ihTypeSpec (Nat.le_refl _) hl0) ?_
        intro q1 hq1 hl1
        refine bind_stays (stays_call (expectR_stays _ _) (Nat.le_refl _) hl1) ?_
        intro q2 hq2 hl2
        exact stays_call ihParamListTail (Nat.le_refl _) hl2
    · -- parse_type_spec
      intro ts pos hpos
      rw [parse_type_spec]
      try dsimp only
      have hsk := skip_stays ts pos hpos
      cases hp : ts[skip_trivia ts pos]? with
      | none => dsimp only; exact hsk
      | some t =>
        try dsimp only
        split
        · exact stays_call advance_ok_stays hsk.1 hsk.2
        · exact hsk
    · -- parse_compound_stmt
      intro ts pos hpos
      rw [parse_compound_stmt]
      try dsimp only
      have hsk := skip_stays ts pos hpos
      cases hp : ts[skip_trivia ts pos]? with
      | none => dsimp only; exact hsk
      | some t =>
        try dsimp only
        refine bind_stays (stays_call (expectR_stays _ _) hsk.1 hsk.2) ?_
        intro q0 hq0 hl0
        refine bind_stays (stays_call ihLocalDeclList (Nat.le_refl _) hl0) ?_
        intro q1 hq1 hl1
        refine bind_stays (stays_call ihStmtList (Nat.le_refl _) hl1) ?_
        intro q2 hq2 hl2
        exact stays_call (expectR_stays _ _) (Nat.le_refl _) hl2
    · -- parse_local_decl_list
      intro ts pos hpos
      rw [parse_local_decl_list]
      try dsimp only
      have hsk := skip_stays ts pos hpos
      cases hp : ts[skip_trivia ts pos]? with
      | none => dsimp only; exact hsk
      | some t =>
        try dsimp only
        split
        · refine bind_stays (stays_call ihVarDecl hsk.1 hsk.2) ?_
          intro q0 hq0 hl0
          exact stays_call ihLocalDeclList (Nat.le_refl _) hl0
        · exact hsk
    · -- parse_stmt_list
      intro ts pos hpos
      rw [parse_stmt_list]
      try dsimp only
      have hsk := skip_stays ts pos hpos
      cases hp : ts[skip_trivia ts pos]? with
      | none => dsimp only; exact hsk
      | some t =>
        try dsimp only
        split
        · refine bind_stays (stays_call ihStmt hsk.1 hsk.2) ?_
          intro q0 hq0 hl0
          exact stays_call ihStmtList (Nat.le_refl _) hl0
        · exact hsk
    · -- parse_stmt
      intro ts pos hpos
      rw [parse_stmt]
      try dsimp only
      have hsk := skip_stays ts pos hpos
      cases hp : ts[skip_trivia ts pos]? with
      | none => dsimp only; exact hsk
      | some t =>
        try dsimp only
        split
        · exact stays_call ihCompound hsk.1 hsk.2
        split
        · exact stays_call ihIfStmt hsk.1 hsk.2
        split
        · exact stays_call ihWhileStmt hsk.1 hsk.2
        split
        · exact stays_call ihForStmt hsk.1 hsk.2
        split
        · exact stays_call ihReturnStmt hsk.1 hsk.2
        split
        · exact stays_call ihExprStmt hsk.1 hsk.2
        · exact hsk
    · -- parse_expr_stmt
      intro ts pos hpos
      rw [parse_expr_stmt]
      try dsimp only
      have hsk := skip_stays ts pos hpos
      split
      · exact stays_call (expectR_stays _ _) hsk.1 hsk.2
      · refine bind_stays (stays_call ihExpr hsk.1 hsk.2) ?_
        intro q0 hq0 hl0
        exact stays_call (expectR_stays _ _) (Nat.le_refl _) hl0
    · -- parse_if_stmt
      intro ts pos hpos
      rw [parse_if_stmt]
      try dsimp only
      have hsk := skip_stays ts pos hpos
      cases hp : ts[skip_trivia ts pos]? with
      | none => dsimp only; exact hsk
      | some t =>
        try dsimp only
        refine bind_stays (stays_call (expectR_stays _ _) hsk.1 hsk.2) ?_
        intro q0 hq0 hl0
        refine bind_stays (stays_call (expectR_stays _ _) (Nat.le_refl _) hl0) ?_
        intro q1 hq1 hl1
        refine bind_stays (stays_call ihExpr (Nat.le_refl _) hl1) ?_
        intro q2 hq2 hl2
        refine bind_stays (stays_call (expectR_stays _ _) (Nat.le_refl _) hl2) ?_
        intro q3 hq3 hl3
        refine bind_stays (stays_call ihStmt (Nat.le_refl _) hl3) ?_
        intro q4 hq4 hl4
        exact stays_call ihElsePart (Nat.le_refl _) hl4
    · -- parse_else_part
      intro ts pos hpos
      rw [parse_else_part]
      try dsimp only
      have hsk := skip_stays ts pos hpos
      cases hp : ts[skip_trivia ts pos]? with
      | none => dsimp only; exact hsk
      | some t =>
        try dsimp only
        split
        · refine bind_stays (stays_call (expectR_stays _ _) hsk.1 hsk.2) ?_
          intro q0 hq0 hl0
          exact stays_call ihStmt (Nat.le_refl _) hl0
        · exact hsk
    · -- parse_while_stmt
      intro ts pos hpos
      rw [parse_while_stmt]
      try dsimp only
      have hsk := skip_stays ts pos hpos
      cases hp : ts[skip_trivia ts pos]? with
      | none => dsimp only; exact hsk
      | some t =>
        try dsimp only
        refine bind_stays (stays_call (expectR_stays _ _) hsk.1 hsk.2) ?_
        intro q0 hq0 hl0
        refine bind_stays (stays_call (expectR_stays _ _) (Nat.le_refl _) hl0) ?_
        intro q1 hq1 hl1
        refine bind_stays (stays_call ihExpr (Nat.le_refl _) hl1) ?_
        intro q2 hq2 hl2
        refine bind_stays (stays_call (expectR_stays _ _) (Nat.le_refl _) hl2) ?_
        intro q3 hq3 hl3
        exact stays_call ihStmt (Nat.le_refl _) hl3
    · -- parse_for_stmt
      intro ts pos hpos
      rw [parse_for_stmt]
      try dsimp only
      have hsk := skip_stays ts pos hpos
      cases hp : ts[skip_trivia ts pos]? with
      | none => dsimp only; exact hsk
      | some t =>
        try dsimp only
        refine bind_stays (stays_call (expectR_stays _ _) hsk.1 hsk.2) ?_
        intro q0 hq0 hl0
        refine bind_stays (stays_call (expectR_stays _ _) (Nat.le_refl _) hl0) ?_
        intro q1 hq1 hl1
        refine bind_stays (stays_call ihExprStmt (Nat.le_refl _) hl1) ?_
        intro q2 hq2 hl2
        refine bind_stays (stays_call ihExprStmt (Nat.le_refl _) hl2) ?_
        intro q3 hq3 hl3
        refine bind_stays (stays_call ihExprOpt (Nat.le_refl _) hl3) ?_
        intro q4 hq4 hl4
        refine bind_stays (stays_call (expectR_stays _ _) (Nat.le_refl _) hl4) ?_
        intro q5 hq5 hl5
        exact stays_call ihStmt (Nat.le_refl _) hl5
    · -- parse_return_stmt
      intro ts pos hpos
      rw [parse_return_stmt]
      try dsimp only
      have hsk := skip_stays ts pos hpos
      cases hp : ts[skip_trivia ts pos]? with
      | none => dsimp only; exact hsk
      | some t =>
        try dsimp only
        refine bind_stays (stays_call (expectR_stays _ _) hsk.1 hsk.2) ?_
        intro q0 hq0 hl0
        refine bind_stays (stays_call ihExprOpt (Nat.le_refl _) hl0) ?_
        intro q1 hq1 hl1
        exact stays_call (expectR_stays _ _) (Nat.le_refl _) hl1
    · -- parse_expr_opt
      intro ts pos hpos
      rw [parse_expr_opt]
      try dsimp only
      have hsk := skip_stays ts pos hpos
      cases hp : ts[skip_trivia ts pos]? with
      | none => dsimp only; exact hsk
      | some t =>
        try dsimp only
        split
        · exact stays_call ihExpr hsk.1 hsk.2
        · exact hsk
    · -- parse_expr
      intro ts pos hpos
      rw [parse_expr]
      exact ihAssign ts pos hpos
    · -- parse_assign_expr
      intro ts pos hpos
      rw [parse_assign_expr]
      try dsimp only
      have hsk := skip_stays ts pos hpos
      cases hp : ts[skip_trivia ts pos]? with
      | none => dsimp only; exact stays_call ihOr hsk.1 hsk.2
      | some t =>
        try dsimp only
        split
        · refine bind_stays (stays_call (expectR_stays _ _) hsk.1 hsk.2) ?_
          intro q0 hq0 hl0
          try dsimp only
          have hsk2 := skip_stays ts q0 hl0
          cases hp2 : ts[skip_trivia ts q0]? with
          | none => dsimp only; exact stays_call ihOr (Nat.le_refl _) hl0
          | some t3 =>
            try dsimp only
            split
            · refine bind_stays (stays_call (expectR_stays _ _) hsk2.1 hsk2.2) ?_
              intro q1 hq1 hl1
              exact stays_call ihAssign (Nat.le_refl _) hl1
            · exact stays_call ihOr (Nat.le_refl _) hl0
        · exact stays_call ihOr hsk.1 hsk.2
    · -- parse_or_expr
      intro ts pos hpos
      rw [parse_or_expr]
      try dsimp only
      refine bind_stays (ihAnd ts pos hpos) ?_
      intro q0 hq0 hl0
      exact stays_call ihOrTail (Nat.le_refl _) hl0
    · -- parse_or_expr_tail
      intro ts pos hpos
      rw [parse_or_expr_tail]
      try dsimp only
      have hsk := skip_stays ts pos hpos
      cases hp : ts[skip_trivia ts pos]? with
      | none => dsimp only; exact hsk
      | some t =>
        try dsimp only
        split
        · refine bind_stays (stays_call (expectR_stays _ _) hsk.1 hsk.2) ?_
          intro q0 hq0 hl0
          refine bind_stays (stays_call ihAnd (Nat.le_refl _) hl0) ?_
          intro q1 hq1 hl1
          exact stays_call ihOrTail (Nat.le_refl _) hl1
        · exact hsk
    · -- parse_and_expr
      intro ts pos hpos
      rw [parse_and_expr]
      try dsimp only
      refine bind_stays (ihRel ts pos hpos) ?_
      intro q0 hq0 hl0
      exact stays_call ihAndTail (Nat.le_refl _) hl0
    · -- parse_and_expr_tail
      intro ts pos hpos
      rw [parse_and_expr_tail]
      try dsimp only
      have hsk := skip_stays ts pos hpos
      cases hp : ts[skip_trivia ts pos]? with
      | none => dsimp only; exact hsk
      | some t =>
        try dsimp only
        split
        · refine bind_stays (stays_call (expectR_stays _ _) hsk.1 hsk.2) ?_
          intro q0 hq0 hl0
          refine bind_stays (stays_call ihRel (Nat.le_refl _) hl0) ?_
          intro q1 hq1 hl1
          exact stays_call ihAndTail (Nat.le_refl _) hl1
        · exact hsk
    · -- parse_rel_expr
      intro ts pos hpos
      rw [parse_rel_expr]
      try dsimp only
      refine bind_stays (ihAdd ts pos hpos) ?_
      intro q0 hq0 hl0
      exact stays_call ihRelOpTail (Nat.le_refl _) hl0
    · -- parse_rel_op_tail
      intro ts pos hpos
      rw [parse_rel_op_tail]
      try dsimp only
      have hsk := skip_stays ts pos hpos
      cases hp : ts[skip_trivia ts pos]? with
      | none => dsimp only; exact hsk
      | some t =>
        try dsimp only
        split
        · refine bind_stays (stays_call ihRelOp hsk.1 hsk.2) ?_
          intro q0 hq0 hl0
          exact stays_call ihAdd (Nat.le_refl _) hl0
        · exact hsk
    · -- parse_rel_op
      intro ts pos hpos
      rw [parse_rel_op]
      try dsimp only
      have hsk := skip_stays ts pos hpos
      cases hp : ts[skip_trivia ts pos]? with
      | none => dsimp only; exact hsk
      | some t =>
        try dsimp only
        split
        · exact stays_call advance_ok_stays hsk.1 hsk.2
        · exact hsk
    · -- parse_add_expr
      intro ts pos hpos
      rw [parse_add_expr]
      try dsimp only
      refine bind_stays (ihTerm ts pos hpos) ?_
      intro q0 hq0 hl0
      exact stays_call ihAddTail (Nat.le_refl _) hl0
    · -- parse_add_expr_tail
      intro ts pos hpos
      rw [parse_add_expr_tail]
      try dsimp only
      have hsk := skip_stays ts pos hpos
      cases hp : ts[skip_trivia ts pos]? with
      | none => dsimp only; exact hsk
      | some t =>
        try dsimp only
        split
        · have hadv := advance_pos ts (skip_trivia ts pos) hsk.2
          refine bind_stays ⟨le_trans hsk.1 (le_trans hadv.1 (ihTerm ts _ hadv.2).1), (ihTerm ts _ hadv.2).2⟩ ?_
          intro q0 hq0 hl0
          exact stays_call ihAddTail (Nat.le_refl _) hl0
        · exact hsk
    · -- parse_term
      intro ts pos hpos
      rw [parse_term]
      try dsimp only
      refine bind_stays (ihFactor ts pos hpos) ?_
      intro q0 hq0 hl0
      exact stays_call ihTermTail (Nat.le_refl _) hl0
    · -- parse_term_tail
      intro ts pos hpos
      rw [parse_term_tail]
      try dsimp only
      have hsk := skip_stays ts pos hpos
      cases hp : ts[skip_trivia ts pos]? with
      | none => dsimp only; exact hsk
      | some t =>
        try dsimp only
        split
        · refine bind_stays (stays_call (expectR_stays _ _) hsk.1 hsk.2) ?_
          intro q0 hq0 hl0
          refine bind_stays (stays_call ihFactor (Nat.le_refl _) hl0) ?_
          intro q1 hq1 hl1
          exact stays_call ihTermTail (Nat.le_refl _) hl1
        split
        · refine bind_stays (stays_call (expectR_stays _ _) hsk.1 hsk.2) ?_
          intro q0 hq0 hl0
          refine bind_stays (stays_call ihFactor (Nat.le_refl _) hl0) ?_
          intro q1 hq1 hl1
          exact stays_call ihTermTail (Nat.le_refl _) hl1
        · exact hsk
    · -- parse_factor
      intro ts pos hpos
      rw [parse_factor]
      try dsimp only
      have hsk := skip_stays ts pos hpos
      cases hp : ts[skip_trivia ts pos]? with
      | none => dsimp only; exact hsk
      | some t =>
        try dsimp only
        split
        · refine bind_stays (stays_call (expectR_stays _ _) hsk.1 hsk.2) ?_
          intro q0 hq0 hl0
          refine bind_stays (stays_call ihExpr (Nat.le_refl _) hl0) ?_
          intro q1 hq1 hl1
          exact stays_call (expectR_stays _ _) (Nat.le_refl _) hl1
        split
        · refine bind_stays (stays_call (expectR_stays _ _) hsk.1 hsk.2) ?_
          intro q0 hq0 hl0
          exact stays_call ihFactorTail (Nat.le_refl _) hl0
        split
        · exact stays_call ihLiteral hsk.1 hsk.2
        · exact hsk
    · -- parse_factor_tail
      intro ts pos hpos
      rw [parse_factor_tail]
      try dsimp only
      have hsk := skip_stays ts pos hpos
      cases hp : ts[skip_trivia ts pos]? with
      | none => dsimp only; exact hsk
      | some t =>
        try dsimp only
        split
        · refine bind_stays (stays_call (expectR_stays _ _) hsk.1 hsk.2) ?_
          intro q0 hq0 hl0
          refine bind_stays (stays_call ihArgList (Nat.le_refl _) hl0) ?_
          intro q1 hq1 hl1
          exact stays_call (expectR_stays _ _) (Nat.le_refl _) hl1
        · exact hsk
    · -- parse_arg_list
      intro ts pos hpos
      rw [parse_arg_list]
      try dsimp only
      have hsk := skip_stays ts pos hpos
      cases hp : ts[skip_trivia ts pos]? with
      | none => dsimp only; exact hsk
      | some t =>
        try dsimp only
        split
        · exact hsk
        · refine bind_stays (stays_call ihExpr hsk.1 hsk.2) ?_
          intro q0 hq0 hl0
          exact stays_call ihArgListTail (Nat.le_refl _) hl0
    · -- parse_arg_list_tail
      intro ts pos hpos
      rw [parse_arg_list_tail]
      try dsimp only
      have hsk := skip_stays ts pos hpos
      cases hp : ts[skip_trivia ts pos]? with
      | none => dsimp only; exact hsk
      | some t =>
        try dsimp only
        split
        · exact hsk
        split
        · refine bind_stays (stays_call (expectR_stays _ _) hsk.1 hsk.2) ?_
          intro q0 hq0 hl0
          refine bind_stays (stays_call ihExpr (Nat.le_refl _) hl0) ?_
          intro q1 hq1 hl1
          exact stays_call ihArgListTail (Nat.le_refl _) hl1
        · exact hsk
    · -- parse_literal
      intro ts pos hpos
      rw [parse_literal]
      try dsimp only
      have hsk := skip_stays ts pos hpos
      cases hp : ts[skip_trivia ts pos]? with
      | none => dsimp only; exact hsk
      | some t =>
        try dsimp only
        exact stays_call (expectR_stays _ _) hsk.1 hsk.2


/-- Claim C9: throughout any parse the cursor satisfies
`0 ≤ pos ≤ len(tokens)` after every primitive and grammar routine, and it
never decreases across a routine or primitive — the explicit backtrack in
`parse_assign_expr` only restores a saved cursor at or after the routine's
entry position, so routine-level monotonicity holds there as well. -/
theorem claim_C9 (fuel : Nat) (ts : List Token) (pos : Nat)
    (hpos : pos ≤ ts.length) :
    (∀ f ∈ parser_routines,
      pos ≤ (f fuel ts pos).pos ∧ (f fuel ts pos).pos ≤ ts.length) ∧
    (pos ≤ skip_trivia ts pos ∧ skip_trivia ts pos ≤ ts.length) ∧
    (pos ≤ (advance ts pos).2 ∧ (advance ts pos).2 ≤ ts.length) ∧
    (∀ (type? : Option TokenType) (lexeme? : Option (List Char)) (adv : Bool),
      pos ≤ (expect ts pos type? lexeme? adv).2 ∧
        (expect ts pos type? lexeme? adv).2 ≤ ts.length) := by
  refine ⟨?_, skip_stays ts pos hpos, advance_pos ts pos hpos,
    fun ty lex adv => expect_pos_stays ts pos ty lex adv hpos⟩
  intro f hf
  obtain ⟨h1, h2, h3, h4, h5, h6, h7, h8, h9, h10, h11, h12, h13, h14, h15,
    h16, h17, h18, h19, h20, h21, h22, h23, h24, h25, h26, h27, h28, h29,
    h30, h31, h32, h33, h34, h35, h36, h37⟩ := parser_stays fuel
  simp only [parser_routines, List.mem_cons, List.not_mem_nil, or_false] at hf
  rcases hf with rfl | rfl | rfl | rfl | rfl | rfl | rfl | rfl | rfl | rfl |
    rfl | rfl | rfl | rfl | rfl | rfl | rfl | rfl | rfl | rfl | rfl | rfl |
    rfl | rfl | rfl | rfl | rfl | rfl | rfl | rfl | rfl | rfl | rfl | rfl |
    rfl | rfl | rfl
  · exact h1 ts pos hpos
  · exact h2 ts pos hpos
  · exact h3 ts pos hpos
  · exact h4 ts pos hpos
  · exact h5 ts pos hpos
  · exact h6 ts pos hpos
  · exact h7 ts pos hpos
  · exact h8 ts pos hpos
  · exact h9 ts pos hpos
  · exact h10 ts pos hpos
  · exact h11 ts pos hpos
  · exact h12 ts pos hpos
  · exact h13 ts pos hpos
  · exact h14 ts pos hpos
  · exact h15 ts pos hpos
  · exact h16 ts pos hpos
  · exact h17 ts pos hpos
  · exact h18 ts pos hpos
  · exact h19 ts pos hpos
  · exact h20 ts pos hpos
  · exact h21 ts pos hpos
  · exact h22 ts pos hpos
  · exact h23 ts pos hpos
  · exact h24 ts pos hpos
  · exact h25 ts pos hpos
  · exact h26 ts pos hpos
  · exact h27 ts pos hpos
  · exact h28 ts pos hpos
  · exact h29 ts pos hpos
  · exact h30 ts pos hpos
  · exact h31 ts pos hpos
  · exact h32 ts pos hpos
  · exact h33 ts pos hpos
  · exact h34 ts pos hpos
  · exact h35 ts pos hpos
  · exact h36 ts pos hpos
  · exact h37 ts pos hpos

/-- Witness for claim C9 on the token stream of `"int x;"` with the cursor at
the start: a full parse leaves the cursor within bounds. -/
theorem claim_C9_witness :
    0 ≤ (parse_program 9 (tokenize (lx "int x;")) 0).pos ∧
      (parse_program 9 (tokenize (lx "int x;")) 0).pos ≤
        (tokenize (lx "int x;")).length :=
  (claim_C9 9 (tokenize (lx "int x;")) 0 (by decide)).1 parse_program
    (by simp [parser_routines])


/-- Claim C2 (code bug): the string `int f(){;}` is derivable from `Program`
in the specification grammar — its body is the single statement `;`, an
`ExprStmt` with the expression omitted, exactly as the parser's own rule
comments state (`ExprStmt → Expr ';' | ';'`) — yet `parse_program` raises
`ParserError` on it, because `parse_stmt_list`'s lookahead set
(`if`/`while`/`for`/`return`, `{`, IDENTIFIER) omits `;`, `(` and numeric
starts.  So `parse(tokenize(s))` does not accept every string derivable from
`Program`. -/
theorem claim_C2 :
    GProgram ((non_trivia (tokenize (lx "int f()\x7b;\x7d"))).map view) ∧
    Res.isErr (parse_outcome (lx "int f()\x7b;\x7d")) = true := by
  constructor
  · have hv : (non_trivia (tokenize (lx "int f()\x7b;\x7d"))).map view =
        [kwV "int", idV (lx "f"), spV "(", spV ")", spV "\x7b", spV ";",
         spV "\x7d"] := by decide
    rw [hv]
    have hstmt : GStmt [spV ";"] := GStmt.exprs _ GExprStmt.empty
    have hstmts : GStmtStar [spV ";"] :=
      GStmtStar.cons [spV ";"] [] hstmt GStmtStar.nil
    have hcomp : GCompound [spV "\x7b", spV ";", spV "\x7d"] :=
      GCompound.mk [] [spV ";"] GVarDeclStar.nil hstmts
    have hdecl : GDecl [kwV "int", idV (lx "f"), spV "(", spV ")", spV "\x7b",
        spV ";", spV "\x7d"] :=
      GDecl.fn [kwV "int"] [] [spV "\x7b", spV ";", spV "\x7d"] (lx "f")
        GTypeSpec.int_ GParamList.eps hcomp
    exact GProgram.decls _ (GDeclStar.cons _ [] hdecl GDeclStar.nil)
  · decide
